import Mathlib

/-!
The repository grncdr/eav: an entity-attribute-value store over two SQL tables.

Shallow embedding of `datatype.go`, `datom.go`, `null_time.go`, `schema.go` and
`store.go`.

* Go values of type `interface{}` are the inductive `GoValue` (one constructor per
  dynamic type the code distinguishes, plus `other` for every remaining type).
* `float64` and `float32` are IEEE-754 bit patterns; the Go conversions
  `float64(v)` are computed on them (round to nearest, ties to even).
* The two tables created by `InitTables` are lists of rows; every SQL statement
  of `store.go` is a function on these lists.  What the columns `numberval numeric`
  and `timeval timestamptz` keep of a value written to them is a parameter
  (`Columns`): a read hands back the value as the column holds it.
* Every call of the persistence adapter (`Query`, `Exec`, `Prepare`, and `Exec`
  on a prepared statement) consults a fault plan: call number `n` fails with the
  error the plan gives for `n`, and then leaves the tables as they are.
-/

namespace Eav

/-! ## datatype.go -/

/-- The Go type `DataType` is a `uint8`. -/
structure DataType where
  code : Fin 256
deriving DecidableEq, Repr

def DataType.undef : DataType := ⟨0⟩
def DataType.String : DataType := ⟨1⟩
def DataType.Number : DataType := ⟨2⟩
def DataType.Boolean : DataType := ⟨3⟩
def DataType.Time : DataType := ⟨4⟩

/-- Modelled from the spec: the `String()` method of `DataType`, which `go generate`
writes with `stringer -type=DataType` and which is not among the source files.  It
prints the name of the constant, as the error texts expected in `datom_test.go` and
`store_test.go` show (`Cannot assign string to Number`). -/
def dataTypeString (t : DataType) : String :=
  if t = DataType.undef then "undef"
  else if t = DataType.String then "String"
  else if t = DataType.Number then "Number"
  else if t = DataType.Boolean then "Boolean"
  else if t = DataType.Time then "Time"
  else "DataType(" ++ toString t.code.val ++ ")"

/-! ## Go values -/

/-- A `time.Time`: seconds and nanoseconds since the epoch, and the location name. -/
structure GoTime where
  sec : Int
  nsec : Nat
  loc : String
deriving DecidableEq, Repr

/-- The zero `time.Time`. -/
def GoTime.zero : GoTime := ⟨0, 0, ""⟩

/-- A `float64`, as its IEEE-754 binary64 bit pattern. -/
structure F64 where
  bits : Nat
deriving DecidableEq, Repr

/-- A `float32`, as its IEEE-754 binary32 bit pattern. -/
structure F32 where
  bits : Nat
deriving DecidableEq, Repr

/-- Number of binary digits of `n`, for `n` below two to the power `fuel`. -/
def bitLen : Nat → Nat → Nat
  | 0, _ => 0
  | fuel + 1, n => if n = 0 then 0 else bitLen fuel (n / 2) + 1

/-- The binary64 with sign bit `sign` and magnitude the integer `n` (below `2^64`),
rounded to nearest, ties to even. -/
def F64.ofMagnitude (sign : Nat) (n : Nat) : F64 :=
  if n = 0 then ⟨0⟩
  else
    let e := bitLen 64 n - 1
    if e ≤ 52 then
      ⟨sign * 2 ^ 63 + (e + 1023) * 2 ^ 52 + (n * 2 ^ (52 - e) - 2 ^ 52)⟩
    else
      let sh := e - 52
      let q := n / 2 ^ sh
      let r := n % 2 ^ sh
      let half := 2 ^ (sh - 1)
      let q1 := if half < r ∨ (r = half ∧ q % 2 = 1) then q + 1 else q
      if q1 = 2 ^ 53 then ⟨sign * 2 ^ 63 + (e + 1024) * 2 ^ 52⟩
      else ⟨sign * 2 ^ 63 + (e + 1023) * 2 ^ 52 + (q1 - 2 ^ 52)⟩

/-- The Go conversion `float64(v)` of an integer `v` of a 64-bit or narrower type. -/
def F64.ofInt (i : Int) : F64 :=
  F64.ofMagnitude (if i < 0 then 1 else 0) i.natAbs

/-- The Go conversion `float64(v)` of a `float32`: exact widening. -/
def F64.ofF32 (f : F32) : F64 :=
  let s := f.bits / 2 ^ 31 % 2
  let e := f.bits / 2 ^ 23 % 256
  let m := f.bits % 2 ^ 23
  if e = 255 then
    if m = 0 then ⟨s * 2 ^ 63 + 2047 * 2 ^ 52⟩
    else ⟨s * 2 ^ 63 + 2047 * 2 ^ 52 + 2 ^ 51 + (m * 2 ^ 29) % 2 ^ 51⟩
  else if e = 0 then
    if m = 0 then ⟨s * 2 ^ 63⟩
    else
      let len := bitLen 23 m
      ⟨s * 2 ^ 63 + (len + 873) * 2 ^ 52 + (m * 2 ^ (53 - len) - 2 ^ 52)⟩
  else ⟨s * 2 ^ 63 + (e + 896) * 2 ^ 52 + m * 2 ^ 29⟩

/-- The zero `float64`. -/
def F64.zero : F64 := ⟨0⟩

/-- The `float64` 1.0. -/
def F64.one : F64 := ⟨0x3FF0000000000000⟩

/-- The `float32` 1.0. -/
def F32.one : F32 := ⟨0x3F800000⟩

/-- A value of the Go type `interface{}`.  Integers carry their mathematical value,
which lies in the range of their type.  `other T` is a value of any dynamic type
the code never names, `T` being what the verb `%T` prints for it. -/
inductive GoValue where
  | nil
  | string (s : String)
  | bool (b : Bool)
  | time (t : GoTime)
  | float64 (f : F64)
  | float32 (f : F32)
  | int (i : Int)
  | int8 (i : Int)
  | int16 (i : Int)
  | int32 (i : Int)
  | int64 (i : Int)
  | uint (n : Nat)
  | uint8 (n : Nat)
  | uint16 (n : Nat)
  | uint32 (n : Nat)
  | uint64 (n : Nat)
  | other (typeName : String)
deriving DecidableEq, Repr

/-- What `fmt` prints for the verb `%T`. -/
def GoValue.typeName : GoValue → String
  | .nil => "<nil>"
  | .string _ => "string"
  | .bool _ => "bool"
  | .time _ => "time.Time"
  | .float64 _ => "float64"
  | .float32 _ => "float32"
  | .int _ => "int"
  | .int8 _ => "int8"
  | .int16 _ => "int16"
  | .int32 _ => "int32"
  | .int64 _ => "int64"
  | .uint _ => "uint"
  | .uint8 _ => "uint8"
  | .uint16 _ => "uint16"
  | .uint32 _ => "uint32"
  | .uint64 _ => "uint64"
  | .other n => n

/-- A Go `error`: the sentinel `sql.ErrNoRows`, or an error made by `fmt.Errorf` or
by the adapter, with its text. -/
inductive GoError where
  | ErrNoRows
  | errorString (msg : String)
deriving DecidableEq, Repr

deriving instance DecidableEq for Except

/-- The method `Error()`. -/
def GoError.Error : GoError → String
  | .ErrNoRows => "sql: no rows in result set"
  | .errorString m => m

/-! ## datom.go and null_time.go -/

structure NullString where
  str : String
  Valid : Bool
deriving DecidableEq, Repr

structure NullFloat64 where
  f : F64
  Valid : Bool
deriving DecidableEq, Repr

structure NullBool where
  b : Bool
  Valid : Bool
deriving DecidableEq, Repr

structure NullTime where
  Time : GoTime
  Valid : Bool
deriving DecidableEq, Repr

/-- Entity identifiers, as the text the adapter writes to the column `entity_id`. -/
abbrev EntityId := String

structure Datom where
  entity : EntityId
  attributeName : String
  attributeID : Nat
  dataType : DataType
  stringVal : NullString
  numberVal : NullFloat64
  booleanVal : NullBool
  timeVal : NullTime
deriving DecidableEq, Repr

/-- The Go composite literal `Datom{entity: e, attributeName: n, dataType: t}`: the
fields left out hold their zero value. -/
def Datom.lit (e : EntityId) (n : String) (t : DataType) : Datom :=
  { entity := e, attributeName := n, attributeID := 0, dataType := t,
    stringVal := ⟨"", false⟩, numberVal := ⟨F64.zero, false⟩,
    booleanVal := ⟨false, false⟩, timeVal := ⟨GoTime.zero, false⟩ }

def Datom.Value (row : Datom) : GoValue :=
  if row.dataType = DataType.Number then .float64 row.numberVal.f
  else if row.dataType = DataType.String then .string row.stringVal.str
  else if row.dataType = DataType.Boolean then .bool row.booleanVal.b
  else if row.dataType = DataType.Time then .time row.timeVal.Time
  else .nil

def badType (val : GoValue) (dataType : DataType) : GoError :=
  .errorString ("Cannot assign " ++ val.typeName ++ " to " ++ dataTypeString dataType)

/-- The inner type switch of `setValue` for a `Number` datom: the `float64` to
store, or nothing in the `default` case. -/
def numberOf : GoValue → Option F64
  | .float64 v => some v
  | .float32 v => some (F64.ofF32 v)
  | .int v => some (F64.ofInt v)
  | .uint32 v => some (F64.ofInt v)
  | .uint64 v => some (F64.ofInt v)
  | .int32 v => some (F64.ofInt v)
  | .int64 v => some (F64.ofInt v)
  | _ => none

/-- The method `setValue` on a pointer receiver: the error returned, and the datom
behind the pointer after the call. -/
def Datom.setValue (row : Datom) (val : GoValue) : Option GoError × Datom :=
  if row.dataType = DataType.String then
    match val with
    | .string s => (none, { row with stringVal := ⟨s, true⟩ })
    | _ => (some (badType val row.dataType), row)
  else if row.dataType = DataType.Boolean then
    match val with
    | .bool b => (none, { row with booleanVal := ⟨b, true⟩ })
    | _ => (some (badType val row.dataType), row)
  else if row.dataType = DataType.Time then
    match val with
    | .time t => (none, { row with timeVal := ⟨t, true⟩ })
    | _ => (some (badType val row.dataType), row)
  else if row.dataType = DataType.Number then
    match numberOf val with
    | some f => (none, { row with numberVal := ⟨f, true⟩ })
    | none => (some (badType val row.dataType), row)
  else (some (badType val row.dataType), row)

/-- The method `Value()` of `sql.NullString`: the bound parameter. -/
def NullString.toColumn (n : NullString) : Option String :=
  if n.Valid then some n.str else none

/-- The method `Scan` of `sql.NullString`. -/
def NullString.Scan : Option String → NullString
  | some s => ⟨s, true⟩
  | none => ⟨"", false⟩

def NullFloat64.toColumn (n : NullFloat64) : Option F64 :=
  if n.Valid then some n.f else none

def NullFloat64.Scan : Option F64 → NullFloat64
  | some f => ⟨f, true⟩
  | none => ⟨F64.zero, false⟩

def NullBool.toColumn (n : NullBool) : Option Bool :=
  if n.Valid then some n.b else none

def NullBool.Scan : Option Bool → NullBool
  | some b => ⟨b, true⟩
  | none => ⟨false, false⟩

def NullTime.Value (nt : NullTime) : Option GoTime :=
  if ¬ nt.Valid then none else some nt.Time

def NullTime.Scan : Option GoTime → NullTime
  | some t => ⟨t, true⟩
  | none => ⟨GoTime.zero, false⟩

/-! ## attribute.go -/

structure Attribute where
  storeID : Nat
  id : Nat
  Name : String
  DataType : DataType
deriving DecidableEq, Repr

/-! ## schema.go: the tables and the statements run on them -/

/-- A row of `eav_schema`; the primary key is `(store_id, name)`. -/
structure SchemaRow where
  store_id : Nat
  datatype : DataType
  name : String
deriving DecidableEq, Repr

/-- A row of `eav_datoms`; the primary key is `(store_id, entity_id, attribute_name)`,
and `(store_id, attribute_name)` references `eav_schema (store_id, name)`. -/
structure DatomRow where
  store_id : Nat
  entity_id : String
  attribute_name : String
  stringval : Option String
  numberval : Option F64
  booleanval : Option Bool
  timeval : Option GoTime
deriving DecidableEq, Repr

structure Tables where
  eav_schema : List SchemaRow
  eav_datoms : List DatomRow
deriving DecidableEq, Repr

/-- The database behind a `Handle`: its tables, and how many calls it has served. -/
structure Handle where
  tables : Tables
  calls : Nat
deriving DecidableEq, Repr

/-- A fault plan: the error, if any, with which the adapter answers call number `n`. -/
abbrev Faults := Nat → Option GoError

/-- The plan under which every persistence call succeeds. -/
def noFaults : Faults := fun _ => none

/-- One call of the adapter, running the statement `run` unless the plan has a fault
for this call; a statement that fails leaves the tables as they are. -/
def Handle.call {α : Type} (plan : Faults) (db : Handle)
    (run : Tables → Except GoError (α × Tables)) : Except GoError α × Handle :=
  match plan db.calls with
  | some e => (.error e, { db with calls := db.calls + 1 })
  | none =>
    match run db.tables with
    | .error e => (.error e, { db with calls := db.calls + 1 })
    | .ok (a, t) => (.ok a, { tables := t, calls := db.calls + 1 })

/-- The statement `select name, datatype from eav_schema where store_id = $1`. -/
def selectSchema (sid : Nat) (t : Tables) : List (String × DataType) :=
  (t.eav_schema.filter (fun r => r.store_id = sid)).map (fun r => (r.name, r.datatype))

/-- The statement `insert into eav_schema (store_id, name, datatype) values ($1, $2, $3)
on conflict (store_id, name) do update set datatype = EXCLUDED.datatype
returning datatype`: the rows it returns and the tables after it. -/
def upsertSchema (sid : Nat) (name : String) (dataType : DataType) (t : Tables) :
    List DataType × Tables :=
  if t.eav_schema.any (fun r => r.store_id = sid ∧ r.name = name) then
    ([dataType],
      { t with eav_schema := t.eav_schema.map (fun r =>
          if r.store_id = sid ∧ r.name = name then { r with datatype := dataType } else r) })
  else
    ([dataType], { t with eav_schema := t.eav_schema ++ [⟨sid, dataType, name⟩] })

/-- The statement `delete from eav_schema where store_id = $1 and name = $2`; the rows
of `eav_datoms` that reference a deleted row go with it (`on delete cascade`). -/
def deleteSchema (sid : Nat) (name : String) (t : Tables) : Tables :=
  if t.eav_schema.any (fun r => r.store_id = sid ∧ r.name = name) then
    { eav_schema := t.eav_schema.filter (fun r => ¬ (r.store_id = sid ∧ r.name = name)),
      eav_datoms := t.eav_datoms.filter
        (fun d => ¬ (d.store_id = sid ∧ d.attribute_name = name)) }
  else t

/-- A row of the result of the query of `readDatoms`. -/
structure DatomResult where
  stringval : Option String
  numberval : Option F64
  booleanval : Option Bool
  timeval : Option GoTime
  datatype : DataType
  name : String
deriving DecidableEq, Repr

/-- The query of `readDatoms`: `eav_datoms` joined with `eav_schema` on
`datoms.attribute_name = s.name and s.store_id = $1`, where
`datoms.store_id = $1 and datoms.entity_id = $2`. -/
def selectDatoms (sid : Nat) (eId : EntityId) (t : Tables) : List DatomResult :=
  (t.eav_datoms.filter (fun d => d.store_id = sid ∧ d.entity_id = eId)).flatMap (fun d =>
    (t.eav_schema.filter (fun s => d.attribute_name = s.name ∧ s.store_id = sid)).map
      (fun s => ⟨d.stringval, d.numberval, d.booleanval, d.timeval, s.datatype, s.name⟩))

/-- The error of the database for a row of `eav_datoms` without its row in `eav_schema`. -/
def foreignKeyViolation : GoError :=
  .errorString
    "pq: insert or update on table \"eav_datoms\" violates foreign key constraint"

/-- What the typed value columns of `eav_datoms` keep of a bound parameter.  The
table declares `numberval numeric` and `timeval timestamptz`: the value read back is
the value written as the column type holds it, which need not be the Go value bit for
bit.  The columns `stringval text` and `booleanval bool` hold what is bound. -/
structure Columns where
  numeric : F64 → F64
  timestamptz : GoTime → GoTime

/-- The row as the columns hold it. -/
def Columns.hold (cols : Columns) (row : DatomRow) : DatomRow :=
  { row with numberval := row.numberval.map cols.numeric,
             timeval := row.timeval.map cols.timestamptz }

/-- The Go value read back from the column of its kind after it was written. -/
def Columns.held (cols : Columns) : GoValue → GoValue
  | .float64 f => .float64 (cols.numeric f)
  | .time t => .time (cols.timestamptz t)
  | v => v

/-- The columns of PostgreSQL, as far as the scenarios below need them: a `numeric`
has no negative zero, and a `timestamptz` keeps the instant to the microsecond and no
location. -/
def pgColumns : Columns where
  numeric := fun f => if f.bits = 2 ^ 63 then ⟨0⟩ else f
  timestamptz := fun t => ⟨t.sec, t.nsec / 1000 * 1000, ""⟩

/-- The insert of a row of `eav_datoms`, or on a conflict with the primary key the
update of the four value columns of the row there; a row without its row in
`eav_schema` is refused. -/
def writeDatomRow (row : DatomRow) (t : Tables) : Except GoError Tables :=
  if t.eav_datoms.any (fun d => d.store_id = row.store_id ∧ d.entity_id = row.entity_id ∧
      d.attribute_name = row.attribute_name) then
    .ok { t with eav_datoms := t.eav_datoms.map (fun d =>
      if d.store_id = row.store_id ∧ d.entity_id = row.entity_id ∧
          d.attribute_name = row.attribute_name then
        { d with stringval := row.stringval, numberval := row.numberval,
                 booleanval := row.booleanval, timeval := row.timeval }
      else d) }
  else if t.eav_schema.any
      (fun s => s.store_id = row.store_id ∧ s.name = row.attribute_name) then
    .ok { t with eav_datoms := t.eav_datoms ++ [row] }
  else .error foreignKeyViolation


/-- The statement prepared by `Assert`: `insert into eav_datoms ... values ($1 .. $7)
on conflict (store_id, entity_id, attribute_name) do update set
(stringval, numberval, booleanval, timeval) = ($4, $5, $6, $7)`, run on the bound
parameters: the row written is the row as the columns hold it. -/
def upsertDatom (cols : Columns) (bound : DatomRow) (t : Tables) : Except GoError Tables :=
  writeDatomRow (cols.hold bound) t

/-- The statement prepared by `Retract`: `delete from eav_datoms
where store_id = $1 and entity_id = $2 and attribute_name = $3`. -/
def deleteDatom (sid : Nat) (eId : EntityId) (name : String) (t : Tables) : Tables :=
  { t with eav_datoms := t.eav_datoms.filter (fun d =>
      ¬ (d.store_id = sid ∧ d.entity_id = eId ∧ d.attribute_name = name)) }

/-! ## store.go -/

/-- The Go type `Schema`, a `map[string]Attribute`. -/
abbrev Schema := String → Option Attribute

/-- The Go type `Attributes`, a `map[string]interface{}`. -/
abbrev Attributes := String → Option GoValue

/-- The Go assignment `m[k] = v`. -/
def mapSet {α : Type} (m : String → Option α) (k : String) (v : α) : String → Option α :=
  fun x => if x = k then some v else m x

/-- The Go builtin `delete(m, k)`. -/
def mapDelete {α : Type} (m : String → Option α) (k : String) : String → Option α :=
  fun x => if x = k then none else m x

/-- An empty Go map. -/
def mapEmpty {α : Type} : String → Option α := fun _ => none

/-- A `Store`; of the two prepared statements only whether they exist is kept. -/
structure Store where
  storeID : Nat
  assertStmt : Bool
  retractStmt : Bool
deriving DecidableEq, Repr

def New (storeID : Nat) : Store := { storeID := storeID, assertStmt := false, retractStmt := false }

def Store.Schema (plan : Faults) (store : Store) (db : Handle) :
    Except GoError Eav.Schema × Handle :=
  match db.call plan (fun t => .ok (selectSchema store.storeID t, t)) with
  | (.error err, db1) => (.error err, db1)
  | (.ok result, db1) =>
    (.ok (result.foldl (fun attrs r =>
        mapSet attrs r.1 { storeID := store.storeID, id := 0, Name := r.1, DataType := r.2 })
      mapEmpty), db1)

/-- The text `%q` prints for a string without characters to escape other than the
double quote and the backslash. -/
def goQuote (s : String) : String :=
  "\"" ++ (s.replace "\\" "\\\\").replace "\"" "\\\"" ++ "\""

def Store.DefineAttribute (plan : Faults) (store : Store) (db : Handle) (name : String)
    (dataType : DataType) : Except GoError Attribute × Handle :=
  match db.call plan (fun t => .ok (upsertSchema store.storeID name dataType t)) with
  | (.error err, db1) => (.error err, db1)
  | (.ok rows, db1) =>
    let attr : Attribute :=
      rows.foldl (fun a dt => { a with DataType := dt })
        { storeID := store.storeID, id := 0, Name := name, DataType := DataType.undef }
    if attr.DataType ≠ dataType then
      (.error (.errorString ("Cannot change datatype of " ++ goQuote attr.Name ++
        " attribute from " ++ dataTypeString attr.DataType ++ " to " ++
        dataTypeString dataType)), db1)
    else (.ok attr, db1)

def Store.ForgetAttribute (plan : Faults) (store : Store) (db : Handle) (name : String) :
    Option GoError × Handle :=
  match db.call plan (fun t => .ok ((), deleteSchema store.storeID name t)) with
  | (.error err, db1) => (some err, db1)
  | (.ok _, db1) => (none, db1)

/-- The `Scan` of one result row into `Datom{entity: eId}` in `readDatoms`. -/
def scanDatom (eId : EntityId) (r : DatomResult) : Datom :=
  { entity := eId, attributeName := r.name, attributeID := 0, dataType := r.datatype,
    stringVal := NullString.Scan r.stringval, numberVal := NullFloat64.Scan r.numberval,
    booleanVal := NullBool.Scan r.booleanval, timeVal := NullTime.Scan r.timeval }

def Store.readDatoms (plan : Faults) (store : Store) (db : Handle) (eId : EntityId) :
    Except GoError (List Datom) × Handle :=
  match db.call plan (fun t => .ok (selectDatoms store.storeID eId t, t)) with
  | (.error err, db1) => (.error (.errorString ("read datoms: " ++ err.Error)), db1)
  | (.ok result, db1) => (.ok (result.map (scanDatom eId)), db1)

def Store.Attributes (plan : Faults) (store : Store) (db : Handle) (eId : EntityId) :
    Except GoError Eav.Attributes × Handle :=
  match store.readDatoms plan db eId with
  | (.error err, db1) =>
    if err = GoError.ErrNoRows then (.ok mapEmpty, db1) else (.error err, db1)
  | (.ok rows, db1) =>
    (.ok (rows.foldl (fun attributes row => mapSet attributes row.attributeName row.Value)
      mapEmpty), db1)

/-- The parameters `Assert` binds for one datom. -/
def Store.assertRow (store : Store) (assertion : Datom) : DatomRow :=
  { store_id := store.storeID, entity_id := assertion.entity,
    attribute_name := assertion.attributeName,
    stringval := assertion.stringVal.toColumn, numberval := assertion.numberVal.toColumn,
    booleanval := assertion.booleanVal.toColumn, timeval := assertion.timeVal.Value }

/-- The loop of `Assert`: it returns at the first `Exec` that fails. -/
def Store.assertLoop (cols : Columns) (plan : Faults) (store : Store) :
    List Datom → Handle → Option GoError × Handle
  | [], db => (none, db)
  | assertion :: rest, db =>
    match db.call plan (fun t => (upsertDatom cols (store.assertRow assertion) t).map
        (fun t1 => ((), t1))) with
    | (.error err, db1) => (some err, db1)
    | (.ok _, db1) => Store.assertLoop cols plan store rest db1

def Store.Assert (cols : Columns) (plan : Faults) (store : Store) (db : Handle)
    (assertions : List Datom) : Option GoError × Store × Handle :=
  if store.assertStmt = false then
    match db.call plan (fun t => .ok ((), t)) with
    | (.error err, db1) => (some err, store, db1)
    | (.ok _, db1) =>
      let store1 := { store with assertStmt := true }
      let r := Store.assertLoop cols plan store1 assertions db1
      (r.1, store1, r.2)
  else
    let r := Store.assertLoop cols plan store assertions db
    (r.1, store, r.2)

/-- The loop of `Retract`: every `Exec` overwrites `err`, and the loop goes on. -/
def Store.retractLoop (plan : Faults) (store : Store) :
    List Datom → Option GoError → Handle → Option GoError × Handle
  | [], err, db => (err, db)
  | datom :: rest, _, db =>
    match db.call plan (fun t =>
        .ok ((), deleteDatom store.storeID datom.entity datom.attributeName t)) with
    | (.error err, db1) => Store.retractLoop plan store rest (some err) db1
    | (.ok _, db1) => Store.retractLoop plan store rest none db1

def Store.Retract (plan : Faults) (store : Store) (db : Handle) (retractions : List Datom) :
    Option GoError × Store × Handle :=
  if store.retractStmt = false then
    match db.call plan (fun t => .ok ((), t)) with
    | (.error err, db1) => (some err, store, db1)
    | (.ok _, db1) =>
      let store1 := { store with retractStmt := true }
      let r := Store.retractLoop plan store1 retractions none db1
      (r.1, store1, r.2)
  else
    let r := Store.retractLoop plan store retractions none db
    (r.1, store, r.2)

/-- What the first loop of `Update` builds from the datoms read: `datomMap` and `attrs`. -/
def Store.indexDatoms (datoms : List Datom) : (String → Option Datom) × Eav.Attributes :=
  datoms.foldl (fun acc datom =>
      (mapSet acc.1 datom.attributeName datom, mapSet acc.2 datom.attributeName datom.Value))
    (mapEmpty, mapEmpty)

/-- The variables the second loop of `Update` works on. -/
structure Staged where
  attrs : Eav.Attributes
  assertions : List Datom
  retractions : List Datom

/-- The loop `for attrName, val := range newAttrs` of `Update`; the list gives the
entries of the map in the order in which the loop meets them. -/
def Store.stage (schemas : Eav.Schema) (datomMap : String → Option Datom) (eId : EntityId) :
    List (String × GoValue) → Staged → Except GoError Staged
  | [], st => .ok st
  | (attrName, val) :: rest, st =>
    match schemas attrName with
    | none => .error (.errorString ("Attribute \"" ++ attrName ++ "\" is not defined"))
    | some schema =>
      if val = GoValue.nil then
        match datomMap attrName with
        | some oldDatom =>
          Store.stage schemas datomMap eId rest
            { st with retractions := st.retractions ++ [oldDatom],
                      attrs := mapDelete st.attrs attrName }
        | none =>
          Store.stage schemas datomMap eId rest { st with attrs := mapDelete st.attrs attrName }
      else
        match (Datom.lit eId attrName schema.DataType).setValue val with
        | (some err, _) =>
          .error (.errorString (err.Error ++ " attribute \"" ++ attrName ++ "\""))
        | (none, datom) =>
          Store.stage schemas datomMap eId rest
            { st with attrs := mapSet st.attrs attrName datom.Value,
                      assertions := st.assertions ++ [datom] }

def Store.Update (cols : Columns) (plan : Faults) (store : Store) (db : Handle)
    (eId : EntityId) (newAttrs : List (String × GoValue)) :
    Except GoError Eav.Attributes × Store × Handle :=
  match store.Schema plan db with
  | (.error err, db1) => (.error err, store, db1)
  | (.ok schemas, db1) =>
    match store.readDatoms plan db1 eId with
    | (.error err, db2) => (.error err, store, db2)
    | (.ok datoms, db2) =>
      let idx := Store.indexDatoms datoms
      match Store.stage schemas idx.1 eId newAttrs ⟨idx.2, [], []⟩ with
      | .error err => (.error err, store, db2)
      | .ok st =>
        let r1 : Option GoError × Store × Handle :=
          if 0 < st.retractions.length then store.Retract plan db2 st.retractions
          else (none, store, db2)
        match r1 with
        | (some err, store1, db3) => (.error err, store1, db3)
        | (none, store1, db3) =>
          let r2 : Option GoError × Store × Handle :=
            if 0 < st.assertions.length then store1.Assert cols plan db3 st.assertions
            else (none, store1, db3)
          match r2 with
          | (some err, store2, db4) => (.error err, store2, db4)
          | (none, store2, db4) => (.ok st.attrs, store2, db4)

def Store.ForgetEntity (plan : Faults) (store : Store) (db : Handle) (id : EntityId) :
    Option GoError × Store × Handle :=
  match store.readDatoms plan db id with
  | (.error err, db1) => (some err, store, db1)
  | (.ok datoms, db1) => store.Retract plan db1 datoms

/-! ## The numbers that floats and numeric inputs denote -/

/-- The sign bit of a double. -/
def F64.sign (x : F64) : Nat := x.bits / 2 ^ 63 % 2

/-- The biased exponent field of a double. -/
def F64.expo (x : F64) : Nat := x.bits / 2 ^ 52 % 2048

/-- The fraction field of a double. -/
def F64.frac (x : F64) : Nat := x.bits % 2 ^ 52

/-- A 64-bit pattern that is neither an infinity nor a NaN. -/
def F64.finite (x : F64) : Prop := x.bits < 2 ^ 64 ∧ x.expo ≠ 2047

/-- The magnitude of a double in units of `2 ^ -1074`. -/
def F64.scaled (x : F64) : Nat :=
  if x.expo = 0 then x.frac else (2 ^ 52 + x.frac) * 2 ^ (x.expo - 1)

/-- The value of a double in units of `2 ^ -1074`. -/
def F64.num (x : F64) : Int := if x.sign = 1 then - (x.scaled : Int) else x.scaled

/-- The number a double denotes; an infinity and a NaN denote none. -/
def F64.toRat (x : F64) : Option ℚ :=
  if x.expo = 2047 then none else some ((x.num : ℚ) / 2 ^ 1074)

/-- The sign bit of a `float32`. -/
def F32.sign (x : F32) : Nat := x.bits / 2 ^ 31 % 2

/-- The biased exponent field of a `float32`. -/
def F32.expo (x : F32) : Nat := x.bits / 2 ^ 23 % 256

/-- The fraction field of a `float32`. -/
def F32.frac (x : F32) : Nat := x.bits % 2 ^ 23

/-- A 32-bit pattern that is neither an infinity nor a NaN. -/
def F32.finite (x : F32) : Prop := x.bits < 2 ^ 32 ∧ x.expo ≠ 255

/-- The magnitude of a `float32` in units of `2 ^ -149`. -/
def F32.scaled (x : F32) : Nat :=
  if x.expo = 0 then x.frac else (2 ^ 23 + x.frac) * 2 ^ (x.expo - 1)

/-- The value of a `float32` in units of `2 ^ -149`. -/
def F32.num (x : F32) : Int := if x.sign = 1 then - (x.scaled : Int) else x.scaled

/-- The number a `float32` denotes; an infinity and a NaN denote none. -/
def F32.toRat (x : F32) : Option ℚ :=
  if x.expo = 255 then none else some ((x.num : ℚ) / 2 ^ 149)

/-- The number a numeric input denotes. -/
def GoValue.number : GoValue → Option ℚ
  | .float64 f => f.toRat
  | .float32 f => f.toRat
  | .int i => some (i : ℚ)
  | .int8 i => some (i : ℚ)
  | .int16 i => some (i : ℚ)
  | .int32 i => some (i : ℚ)
  | .int64 i => some (i : ℚ)
  | .uint n => some (n : ℚ)
  | .uint8 n => some (n : ℚ)
  | .uint16 n => some (n : ℚ)
  | .uint32 n => some (n : ℚ)
  | .uint64 n => some (n : ℚ)
  | _ => none

/-- The value lies in the range of its Go type (`int` and `uint` have 64 bits). -/
def GoValue.inRange : GoValue → Prop
  | .float64 f => f.bits < 2 ^ 64
  | .float32 f => f.bits < 2 ^ 32
  | .int i => -2 ^ 63 ≤ i ∧ i < 2 ^ 63
  | .int8 i => -2 ^ 7 ≤ i ∧ i < 2 ^ 7
  | .int16 i => -2 ^ 15 ≤ i ∧ i < 2 ^ 15
  | .int32 i => -2 ^ 31 ≤ i ∧ i < 2 ^ 31
  | .int64 i => -2 ^ 63 ≤ i ∧ i < 2 ^ 63
  | .uint n => n < 2 ^ 64
  | .uint8 n => n < 2 ^ 8
  | .uint16 n => n < 2 ^ 16
  | .uint32 n => n < 2 ^ 32
  | .uint64 n => n < 2 ^ 64
  | _ => True

/-! ## The words of the specification -/

/-- The four supported kinds. -/
def DataType.supported (t : DataType) : Prop :=
  t = DataType.String ∨ t = DataType.Number ∨ t = DataType.Boolean ∨ t = DataType.Time

instance (t : DataType) : Decidable t.supported := by
  unfold DataType.supported; infer_instance

/-- The canonical value of an input, in the words of the specification: a string, a
boolean and a time stand for themselves, a number of any kind for its
double-precision float. -/
def canonicalValue : GoValue → GoValue
  | .float32 v => .float64 (F64.ofF32 v)
  | .int v => .float64 (F64.ofInt v)
  | .int8 v => .float64 (F64.ofInt v)
  | .int16 v => .float64 (F64.ofInt v)
  | .int32 v => .float64 (F64.ofInt v)
  | .int64 v => .float64 (F64.ofInt v)
  | .uint v => .float64 (F64.ofInt v)
  | .uint8 v => .float64 (F64.ofInt v)
  | .uint16 v => .float64 (F64.ofInt v)
  | .uint32 v => .float64 (F64.ofInt v)
  | .uint64 v => .float64 (F64.ofInt v)
  | v => v

/-- The native integer and floating-point inputs. -/
def GoValue.isNumeric : GoValue → Bool
  | .float64 _ | .float32 _ | .int _ | .int8 _ | .int16 _ | .int32 _ | .int64 _
  | .uint _ | .uint8 _ | .uint16 _ | .uint32 _ | .uint64 _ => true
  | _ => false

/-- The seven numeric input types named by `TestNumberCoercion`. -/
def GoValue.isTestedNumber : GoValue → Bool
  | .float64 _ | .float32 _ | .int _ | .int32 _ | .int64 _ | .uint32 _ | .uint64 _ => true
  | _ => false

/-- A `Number` datom with empty value slots. -/
def numberDatom : Datom := Datom.lit "e" "count" DataType.Number

/-! ## The tables seen attribute by attribute -/

/-- The row of `eav_schema` that defines attribute `k` in store `sid`: the last one in
the table, as a later row overwrites an earlier one in the map built by `Schema()`
(the primary key admits one row at most). -/
def schemaRow (sid : Nat) (k : String) (t : Tables) : Option SchemaRow :=
  t.eav_schema.reverse.find? (fun r => r.store_id = sid ∧ r.name = k)

/-- The row of `eav_datoms` for entity `e` and attribute `k` in store `sid`. -/
def datomRow (sid : Nat) (e : EntityId) (k : String) (t : Tables) : Option DatomRow :=
  t.eav_datoms.reverse.find?
    (fun d => d.store_id = sid ∧ d.entity_id = e ∧ d.attribute_name = k)

/-- The datom that `readDatoms` makes of a row of `eav_datoms` joined with a row of
`eav_schema`. -/
def joinDatom (e : EntityId) (d : DatomRow) (s : SchemaRow) : Datom :=
  scanDatom e ⟨d.stringval, d.numberval, d.booleanval, d.timeval, s.datatype, s.name⟩

/-- The schema of store `sid`, attribute by attribute. -/
def schemaView (sid : Nat) (t : Tables) : Schema :=
  fun k => (schemaRow sid k t).map (fun r => ⟨sid, 0, r.name, r.datatype⟩)

/-- The datom of entity `e` for attribute `k`, if the join has one. -/
def datomView (sid : Nat) (e : EntityId) (t : Tables) : String → Option Datom :=
  fun k => (datomRow sid e k t).bind (fun d => (schemaRow sid k t).map (joinDatom e d))

/-- The attributes of entity `e` in store `sid`, attribute by attribute. -/
def attrsView (sid : Nat) (e : EntityId) (t : Tables) : Attributes :=
  fun k => (datomView sid e t k).map Datom.Value

/-- One `Exec` of the statement of `Assert` on the tables: a statement that fails
leaves them as they are. -/
def Store.applyAssert (store : Store) (cols : Columns) (t : Tables) (assertion : Datom) :
    Tables :=
  match upsertDatom cols (store.assertRow assertion) t with
  | .ok t1 => t1
  | .error _ => t

/-- One `Exec` of the statement of `Retract` on the tables. -/
def Store.applyRetract (store : Store) (t : Tables) (datom : Datom) : Tables :=
  deleteDatom store.storeID datom.entity datom.attributeName t

/-! ## Scenarios -/

def emptyDb : Handle := ⟨⟨[], []⟩, 0⟩

/-- Store 1 of `TestRemoveAttributes` before its second `Update`: `label` and `other`
are `String` attributes and entity `1` holds `label = "whatever"`. -/
def labelDb : Handle :=
  ⟨⟨[⟨1, DataType.String, "label"⟩, ⟨1, DataType.String, "other"⟩],
    [⟨1, "1", "label", some "whatever", none, none, none⟩]⟩, 0⟩

/-- As `labelDb`, with entity `1` holding `other = "hi"` as well. -/
def twoFactsDb : Handle :=
  ⟨⟨[⟨1, DataType.String, "label"⟩, ⟨1, DataType.String, "other"⟩],
    [⟨1, "1", "label", some "whatever", none, none, none⟩,
     ⟨1, "1", "other", some "hi", none, none, none⟩]⟩, 0⟩

/-- The two datoms of entity `1` in `twoFactsDb`, as `readDatoms` returns them. -/
def twoFacts : List Datom :=
  [{ Datom.lit "1" "label" DataType.String with stringVal := ⟨"whatever", true⟩ },
   { Datom.lit "1" "other" DataType.String with stringVal := ⟨"hi", true⟩ }]

/-- Store 1 of `TestSmoke` after `DefineAttribute("count", Number)`. -/
def countDb : Handle := ⟨⟨[⟨1, DataType.Number, "count"⟩], []⟩, 0⟩

/-- Stores 1 and 2 of `TestStoreIsolation` after their first `Update`. -/
def countryDb : Handle :=
  ⟨⟨[⟨1, DataType.String, "country"⟩, ⟨2, DataType.Number, "country"⟩],
    [⟨1, "thing", "country", some "Kanada", none, none, none⟩,
     ⟨2, "thing", "country", none, some (F64.ofInt 49), none, none⟩]⟩, 0⟩

/-- The second `Update` of `TestRemoveAttributes`. -/
def removeLabel : Except GoError Attributes × Store × Handle :=
  (New 1).Update pgColumns noFaults labelDb "1" [("label", .nil), ("other", .string "hi")]

/-- The map the second `Update` of `TestRemoveAttributes` builds. -/
def removeLabelMap : Attributes :=
  mapSet (mapDelete (mapSet mapEmpty "label" (.string "whatever")) "label") "other"
    (.string "hi")

/-- The `Update` of `TestSmoke`. -/
def setCount : Except GoError Attributes × Store × Handle :=
  (New 1).Update pgColumns noFaults countDb "abcdefg" [("count", .int 359)]

/-- The map the `Update` of `TestSmoke` builds: `count` is the double 359.0. -/
def setCountMap : Attributes := mapSet mapEmpty "count" (.float64 ⟨0x4076700000000000⟩)

/-- Store 1 of `TestDataTypes` with its attribute `someTime`, before any `Update`. -/
def timeDb : Handle := ⟨⟨[⟨1, DataType.Time, "someTime"⟩], []⟩, 0⟩

/-- A time with 100 nanoseconds beyond a whole microsecond, in the location `UTC`. -/
def nanoTime : GoTime := ⟨1762257600, 123456100, "UTC"⟩

/-- An `Update` of `someTime` with a time that is not truncated, unlike the times of
`TestDataTypes`. -/
def setTime : Except GoError Attributes × Store × Handle :=
  (New 1).Update pgColumns noFaults timeDb "first" [("someTime", .time nanoTime)]

/-- The map that `setTime` builds. -/
def setTimeMap : Attributes := mapSet mapEmpty "someTime" (.time nanoTime)

/-- The error of an adapter that has lost its connection. -/
def connectionLost : GoError := .errorString "driver: bad connection"

/-- The plan in which call number `n` alone fails. -/
def failsAt (n : Nat) : Faults := fun i => if i = n then some connectionLost else none

/-! ## Theorems on datoms -/

theorem bitLen_spec : ∀ (fuel n : Nat), 0 < n → n < 2 ^ fuel →
    2 ^ (bitLen fuel n - 1) ≤ n ∧ n < 2 ^ bitLen fuel n ∧ 1 ≤ bitLen fuel n ∧
      bitLen fuel n ≤ fuel := by
  intro fuel
  induction fuel with
  | zero => intro n h0 h1; simp at h1; omega
  | succ fuel ih =>
    intro n h0 h1
    have hn : n ≠ 0 := by omega
    simp only [bitLen, hn, if_false]
    by_cases h2 : n / 2 = 0
    · have : n = 1 := by omega
      subst this
      cases fuel <;> simp [bitLen]
    · have hlt : n / 2 < 2 ^ fuel := by
        rw [Nat.pow_succ] at h1; omega
      obtain ⟨a, b, c, d⟩ := ih (n / 2) (by omega) hlt
      refine ⟨?_, ?_, by omega, by omega⟩
      · simp only [Nat.add_sub_cancel]
        have : 2 ^ bitLen fuel (n / 2) = 2 ^ (bitLen fuel (n / 2) - 1) * 2 := by
          rw [← Nat.pow_succ]; congr 1; omega
        omega
      · rw [Nat.pow_succ]; omega

theorem F64.decode (s E F : Nat) (hs : s ≤ 1) (hE : E < 2048) (hF : F < 2 ^ 52) :
    (⟨s * 2 ^ 63 + E * 2 ^ 52 + F⟩ : F64).sign = s ∧
    (⟨s * 2 ^ 63 + E * 2 ^ 52 + F⟩ : F64).expo = E ∧
    (⟨s * 2 ^ 63 + E * 2 ^ 52 + F⟩ : F64).frac = F ∧
    (⟨s * 2 ^ 63 + E * 2 ^ 52 + F⟩ : F64).bits < 2 ^ 64 := by
  simp only [F64.sign, F64.expo, F64.frac]
  norm_num at hF ⊢
  omega

theorem F64.bits_eq (x : F64) (h : x.bits < 2 ^ 64) :
    x.bits = x.sign * 2 ^ 63 + x.expo * 2 ^ 52 + x.frac := by
  simp only [F64.sign, F64.expo, F64.frac]
  norm_num at h ⊢
  omega

theorem F64.frac_lt (x : F64) : x.frac < 2 ^ 52 := Nat.mod_lt _ (by norm_num)

theorem F64.sign_le (x : F64) : x.sign ≤ 1 := by
  unfold F64.sign; omega

theorem pow_le_normal (f e : Nat) : 2 ^ 52 ≤ (2 ^ 52 + f) * 2 ^ e := by
  calc 2 ^ 52 ≤ 2 ^ 52 + f := Nat.le_add_right _ _
    _ ≤ (2 ^ 52 + f) * 2 ^ e := Nat.le_mul_of_pos_right _ (pow_pos (by norm_num) _)

theorem normal_inj_aux (f1 f2 a d : Nat) (h1 : f1 < 2 ^ 52) (hd : 0 < d)
    (h : (2 ^ 52 + f1) * 2 ^ a = (2 ^ 52 + f2) * 2 ^ (a + d)) : False := by
  rw [Nat.pow_add, ← Nat.mul_assoc] at h
  have h2 : 2 ^ 52 + f1 = (2 ^ 52 + f2) * 2 ^ d := by
    have hpos : 0 < 2 ^ a := pow_pos (by norm_num) _
    have h3 : (2 ^ 52 + f1) * 2 ^ a = ((2 ^ 52 + f2) * 2 ^ d) * 2 ^ a := by
      rw [h]; ring
    exact Nat.eq_of_mul_eq_mul_right hpos h3
  have h4 : 2 ≤ 2 ^ d := by
    calc 2 = 2 ^ 1 := by norm_num
      _ ≤ 2 ^ d := Nat.pow_le_pow_right (by norm_num) hd
  have h5 : (2 ^ 52 + f2) * 2 ≤ (2 ^ 52 + f2) * 2 ^ d := Nat.mul_le_mul_left _ h4
  generalize (2 ^ 52 + f2) * 2 ^ d = M at h2 h5
  have e52 : (2 : Nat) ^ 52 = 4503599627370496 := by norm_num
  rw [e52] at h1 h2 h5
  omega

/-- Two finite doubles with the same sign bit and the same magnitude are the same
pattern. -/
theorem F64.eq_of_sign_scaled (x y : F64) (hx : x.finite) (hy : y.finite)
    (hs : x.sign = y.sign) (hm : x.scaled = y.scaled) : x = y := by
  have key : x.expo = y.expo ∧ x.frac = y.frac := by
    unfold F64.scaled at hm
    have fx := x.frac_lt
    have fy := y.frac_lt
    by_cases ex : x.expo = 0
    · by_cases ey : y.expo = 0
      · rw [if_pos ex, if_pos ey] at hm
        exact ⟨ex.trans ey.symm, hm⟩
      · rw [if_pos ex, if_neg ey] at hm
        have := pow_le_normal y.frac (y.expo - 1)
        omega
    · by_cases ey : y.expo = 0
      · rw [if_neg ex, if_pos ey] at hm
        have := pow_le_normal x.frac (x.expo - 1)
        omega
      · rw [if_neg ex, if_neg ey] at hm
        rcases Nat.lt_trichotomy x.expo y.expo with hlt | heq | hgt
        · exfalso
          have : y.expo - 1 = (x.expo - 1) + (y.expo - x.expo) := by omega
          rw [this] at hm
          exact normal_inj_aux _ _ _ _ fx (by omega) hm
        · rw [heq] at hm
          have hpos : 0 < 2 ^ (y.expo - 1) := pow_pos (by norm_num) _
          have := Nat.eq_of_mul_eq_mul_right hpos hm
          exact ⟨heq, by omega⟩
        · exfalso
          have : x.expo - 1 = (y.expo - 1) + (x.expo - y.expo) := by omega
          rw [this] at hm
          exact normal_inj_aux _ _ _ _ fy (by omega) hm.symm
  cases x with
  | mk bx =>
    cases y with
    | mk bY =>
      have e1 := F64.bits_eq ⟨bx⟩ hx.1
      have e2 := F64.bits_eq ⟨bY⟩ hy.1
      rw [hs, key.1, key.2, ← e2] at e1
      simp only at e1
      rw [e1]

theorem round_spec (n sh : Nat) (hsh : 1 ≤ sh) :
    ∀ q1, q1 = (if 2 ^ (sh - 1) < n % 2 ^ sh ∨ (n % 2 ^ sh = 2 ^ (sh - 1) ∧ n / 2 ^ sh % 2 = 1)
        then n / 2 ^ sh + 1 else n / 2 ^ sh) →
      (n % 2 ^ sh = 0 → q1 * 2 ^ sh = n) ∧
      2 * (q1 * 2 ^ sh - n) ≤ 2 ^ sh ∧ 2 * (n - q1 * 2 ^ sh) ≤ 2 ^ sh ∧
      (2 * (n % 2 ^ sh) = 2 ^ sh → q1 % 2 = 0) ∧
      n / 2 ^ sh ≤ q1 ∧ q1 ≤ n / 2 ^ sh + 1 := by
  intro q1 hq1
  have hP : 2 ^ sh = 2 * 2 ^ (sh - 1) := by
    rw [← Nat.pow_succ']; congr 1; omega
  have hhalf : 0 < 2 ^ (sh - 1) := pow_pos (by norm_num) _
  have hdm := Nat.div_add_mod n (2 ^ sh)
  have hrem : n % 2 ^ sh < 2 ^ sh := Nat.mod_lt _ (pow_pos (by norm_num) _)
  generalize 2 ^ (sh - 1) = half at *
  generalize n % 2 ^ sh = rem at *
  generalize n / 2 ^ sh = q at *
  generalize 2 ^ sh = P at *
  subst hP
  split_ifs at hq1 with hc
  · subst hq1
    have e1 : (q + 1) * (2 * half) = 2 * half * q + 2 * half := by ring
    rw [e1]
    generalize 2 * half * q = A at *
    refine ⟨?_, ?_, ?_, ?_, ?_, ?_⟩ <;> omega
  · rw [hq1]
    have e1 : q * (2 * half) = 2 * half * q := by ring
    rw [e1]
    generalize 2 * half * q = A at *
    refine ⟨?_, ?_, ?_, ?_, ?_, ?_⟩ <;> omega

theorem pow_merge (a b c : Nat) (h : a + b = c) : 2 ^ a * 2 ^ b = 2 ^ c := by
  rw [← Nat.pow_add, h]

/-- What `F64.ofMagnitude` returns for a magnitude below `2 ^ 64`: a finite double with
the sign bit asked for, denoting a multiple `r` of the unit in the last place, at most
half a unit away from `n`, equal to `n` when `n` is such a multiple, and with an even
quotient when `n` lies halfway. -/
theorem ofMagnitude_spec (s n : Nat) (hs : s ≤ 1) (hn : 0 < n) (hlt : n < 2 ^ 64) :
    (F64.ofMagnitude s n).finite ∧ (F64.ofMagnitude s n).sign = s ∧
    ∃ r, (F64.ofMagnitude s n).scaled = r * 2 ^ 1074 ∧
      (n % 2 ^ (bitLen 64 n - 53) = 0 → r = n) ∧
      2 * (r - n) ≤ 2 ^ (bitLen 64 n - 53) ∧ 2 * (n - r) ≤ 2 ^ (bitLen 64 n - 53) ∧
      (2 * (n % 2 ^ (bitLen 64 n - 53)) = 2 ^ (bitLen 64 n - 53) →
        r / 2 ^ (bitLen 64 n - 53) % 2 = 0) := by
  obtain ⟨hlo, hhi, hl1, hl64⟩ := bitLen_spec 64 n hn hlt
  unfold F64.ofMagnitude
  rw [if_neg (by omega)]
  simp only
  generalize hlen : bitLen 64 n = len at *
  by_cases he : len - 1 ≤ 52
  · rw [if_pos he]
    have hsh : len - 53 = 0 := by omega
    have hpow : 2 ^ (len - 1) * 2 ^ (52 - (len - 1)) = 2 ^ 52 :=
      pow_merge _ _ _ (by omega)
    have hpow2 : 2 ^ len * 2 ^ (52 - (len - 1)) = 2 ^ 53 :=
      pow_merge _ _ _ (by omega)
    have hge : 2 ^ 52 ≤ n * 2 ^ (52 - (len - 1)) := by
      rw [← hpow]; exact Nat.mul_le_mul_right _ hlo
    have hlt2 : n * 2 ^ (52 - (len - 1)) < 2 ^ 53 := by
      rw [← hpow2]
      exact Nat.mul_lt_mul_of_pos_right hhi (pow_pos (by norm_num) _)
    have hF : n * 2 ^ (52 - (len - 1)) - 2 ^ 52 < 2 ^ 52 := by
      have e53 : (2 : Nat) ^ 53 = 2 * 2 ^ 52 := by norm_num
      omega
    obtain ⟨d1, d2, d3, d4⟩ := F64.decode s (len - 1 + 1023) _ hs (by omega) hF
    refine ⟨⟨d4, by rw [d2]; omega⟩, d1, n, ?_, fun _ => rfl, by simp, by simp, ?_⟩
    · unfold F64.scaled
      rw [d2, d3, if_neg (by omega)]
      have : 2 ^ 52 + (n * 2 ^ (52 - (len - 1)) - 2 ^ 52) = n * 2 ^ (52 - (len - 1)) := by
        omega
      rw [this, Nat.mul_assoc, pow_merge _ _ 1074 (by omega)]
    · rw [hsh]
      intro h
      simp at h
  · rw [if_neg he]
    have hsh : len - 1 - 52 = len - 53 := by omega
    have hsh1 : 1 ≤ len - 53 := by omega
    rw [hsh]
    generalize hq1 : (if 2 ^ (len - 53 - 1) < n % 2 ^ (len - 53) ∨
        (n % 2 ^ (len - 53) = 2 ^ (len - 53 - 1) ∧ n / 2 ^ (len - 53) % 2 = 1)
        then n / 2 ^ (len - 53) + 1 else n / 2 ^ (len - 53)) = q1
    obtain ⟨r1, r2, r3, r4, r5, r6⟩ := round_spec n (len - 53) hsh1 q1 hq1.symm
    have hP : 0 < 2 ^ (len - 53) := pow_pos (by norm_num) _
    have hqlo : 2 ^ 52 ≤ n / 2 ^ (len - 53) := by
      rw [Nat.le_div_iff_mul_le hP, pow_merge _ _ (len - 1) (by omega)]
      exact hlo
    have hqhi : n / 2 ^ (len - 53) < 2 ^ 53 := by
      rw [Nat.div_lt_iff_lt_mul hP, pow_merge _ _ len (by omega)]
      exact hhi
    have hdiv : q1 * 2 ^ (len - 53) / 2 ^ (len - 53) = q1 := Nat.mul_div_cancel _ hP
    by_cases hc : q1 = 2 ^ 53
    · rw [if_pos hc]
      have hb : s * 2 ^ 63 + (len - 1 + 1024) * 2 ^ 52 =
          s * 2 ^ 63 + (len - 1 + 1024) * 2 ^ 52 + 0 := by omega
      rw [hb]
      obtain ⟨d1, d2, d3, d4⟩ := F64.decode s (len - 1 + 1024) 0 hs (by omega) (by norm_num)
      refine ⟨⟨d4, by rw [d2]; omega⟩, d1, q1 * 2 ^ (len - 53), ?_, r1, r2, r3, ?_⟩
      · unfold F64.scaled
        rw [d2, d3, if_neg (by omega), hc, Nat.add_zero, Nat.mul_assoc,
          pow_merge 52 _ (len + 1074) (by omega), pow_merge (len - 53) _ (len + 1021) (by omega),
          pow_merge 53 _ (len + 1074) (by omega)]
      · rw [hdiv]; exact r4
    · rw [if_neg hc]
      have hF : q1 - 2 ^ 52 < 2 ^ 52 := by
        have e53 : (2 : Nat) ^ 53 = 2 * 2 ^ 52 := by norm_num
        omega
      obtain ⟨d1, d2, d3, d4⟩ := F64.decode s (len - 1 + 1023) _ hs (by omega) hF
      refine ⟨⟨d4, by rw [d2]; omega⟩, d1, q1 * 2 ^ (len - 53), ?_, r1, r2, r3, ?_⟩
      · unfold F64.scaled
        rw [d2, d3, if_neg (by omega)]
        have : 2 ^ 52 + (q1 - 2 ^ 52) = q1 := by omega
        rw [this, Nat.mul_assoc, pow_merge (len - 53) 1074 (len - 1 + 1023 - 1) (by omega)]
      · rw [hdiv]; exact r4

theorem representable_multiple (y : F64) (n : Nat) (hn : 0 < n) (hlt : n < 2 ^ 64)
    (hy : y.scaled = n * 2 ^ 1074) : n % 2 ^ (bitLen 64 n - 53) = 0 := by
  obtain ⟨hlo, _, _, hl64⟩ := bitLen_spec 64 n hn hlt
  generalize bitLen 64 n = len at *
  by_cases hlen : len ≤ 53
  · have : len - 53 = 0 := by omega
    rw [this]; simp [Nat.mod_one]
  · have hbig : 2 ^ (len - 1) * 2 ^ 1074 ≤ n * 2 ^ 1074 := Nat.mul_le_mul_right _ hlo
    have hfr := y.frac_lt
    unfold F64.scaled at hy
    by_cases he : y.expo = 0
    · rw [if_pos he] at hy
      have h1 : (2 : Nat) ^ 52 ≤ 2 ^ (len - 1) * 2 ^ 1074 := by
        rw [pow_merge _ _ (len - 1 + 1074) rfl]
        exact Nat.pow_le_pow_right (by norm_num) (by omega)
      omega
    · rw [if_neg he] at hy
      have hE : len - 53 + 1074 ≤ y.expo - 1 := by
        by_contra hcon
        have h1 : y.expo - 1 ≤ len - 53 + 1073 := by omega
        have h2 : (2 ^ 52 + y.frac) * 2 ^ (y.expo - 1) < 2 ^ 53 * 2 ^ (y.expo - 1) :=
          Nat.mul_lt_mul_of_pos_right (by norm_num at hfr ⊢; omega) (pow_pos (by norm_num) _)
        have h3 : 2 ^ 53 * 2 ^ (y.expo - 1) ≤ 2 ^ 53 * 2 ^ (len - 53 + 1073) :=
          Nat.mul_le_mul_left _ (Nat.pow_le_pow_right (by norm_num) h1)
        have h4 : 2 ^ 53 * 2 ^ (len - 53 + 1073) = 2 ^ (len - 1) * 2 ^ 1074 := by
          rw [pow_merge 53 _ (len + 1073) (by omega), pow_merge (len - 1) _ (len + 1073) (by omega)]
        omega
      obtain ⟨t, ht⟩ : ∃ t, y.expo - 1 = t + (len - 53) + 1074 := ⟨y.expo - 1 - (len - 53 + 1074), by omega⟩
      rw [ht, Nat.pow_add, Nat.pow_add, ← Nat.mul_assoc, ← Nat.mul_assoc] at hy
      have hn2 : n = (2 ^ 52 + y.frac) * 2 ^ t * 2 ^ (len - 53) :=
        (Nat.eq_of_mul_eq_mul_right (pow_pos (by norm_num) 1074) hy).symm
      rw [hn2]
      exact Nat.mul_mod_left _ _

theorem F64.toRat_of_finite (x : F64) (h : x.finite) :
    x.toRat = some ((x.num : ℚ) / 2 ^ 1074) := by
  unfold F64.toRat; rw [if_neg h.2]

theorem F64.num_eq_of_toRat (x y : F64) (hx : x.finite) (hy : y.finite)
    (h : x.toRat = y.toRat) : x.num = y.num := by
  rw [x.toRat_of_finite hx, y.toRat_of_finite hy, Option.some.injEq] at h
  have h2 : (2 : ℚ) ^ 1074 ≠ 0 := pow_ne_zero _ (by norm_num)
  exact Int.cast_injective ((div_left_inj' h2).1 h)

theorem F64.num_of_toRat_int (y : F64) (hy : y.finite) (i : Int)
    (h : y.toRat = some (i : ℚ)) : y.num = i * 2 ^ 1074 := by
  rw [y.toRat_of_finite hy, Option.some.injEq] at h
  have h2 : (2 : ℚ) ^ 1074 ≠ 0 := pow_ne_zero _ (by norm_num)
  have h3 : (y.num : ℚ) = (i : ℚ) * 2 ^ 1074 := (div_eq_iff h2).1 h
  exact_mod_cast h3

/-- Two finite doubles that denote the same number other than zero are the same
pattern. -/
theorem F64.eq_of_toRat (x y : F64) (hx : x.finite) (hy : y.finite)
    (h : x.toRat = y.toRat) (h0 : x.toRat ≠ some 0) : x = y := by
  have hnum := F64.num_eq_of_toRat x y hx hy h
  have hx0 : x.num ≠ 0 := by
    intro h1
    apply h0
    rw [x.toRat_of_finite hx, h1]; simp
  have sx := x.sign_le
  have sy := y.sign_le
  unfold F64.num at hnum hx0
  apply F64.eq_of_sign_scaled x y hx hy
  · split_ifs at hnum hx0 <;> omega
  · split_ifs at hnum hx0 <;> omega

theorem ofInt_spec (i : Int) (hi : i.natAbs < 2 ^ 64) :
    (F64.ofInt i).finite ∧
    ∃ r : Int, (F64.ofInt i).num = r * 2 ^ 1074 ∧
      (i.natAbs % 2 ^ (bitLen 64 i.natAbs - 53) = 0 → r = i) ∧
      2 * (r - i).natAbs ≤ 2 ^ (bitLen 64 i.natAbs - 53) := by
  unfold F64.ofInt
  by_cases h0 : i = 0
  · subst h0
    have hz : F64.ofMagnitude (if (0 : Int) < 0 then 1 else 0) (0 : Int).natAbs = ⟨0⟩ := by
      simp [F64.ofMagnitude]
    rw [hz]
    refine ⟨⟨by norm_num, by simp [F64.expo]⟩, 0, ?_, fun _ => rfl, by simp⟩
    simp [F64.num, F64.scaled, F64.expo, F64.frac]
  · have hn : 0 < i.natAbs := Int.natAbs_pos.2 h0
    by_cases hneg : i < 0
    · rw [if_pos hneg]
      obtain ⟨hf, hsgn, r, hr, hex, hb1, hb2, _⟩ := ofMagnitude_spec 1 i.natAbs (by omega) hn hi
      refine ⟨hf, -(r : Int), ?_, ?_, ?_⟩
      · unfold F64.num; rw [if_pos hsgn, hr]; push_cast; ring
      · intro hm; rw [hex hm]; omega
      · generalize 2 ^ (bitLen 64 i.natAbs - 53) = U at *
        omega
    · rw [if_neg hneg]
      obtain ⟨hf, hsgn, r, hr, hex, hb1, hb2, _⟩ := ofMagnitude_spec 0 i.natAbs (by omega) hn hi
      refine ⟨hf, (r : Int), ?_, ?_, ?_⟩
      · unfold F64.num; rw [if_neg (by omega), hr]; push_cast; ring
      · intro hm; rw [hex hm]; omega
      · generalize 2 ^ (bitLen 64 i.natAbs - 53) = U at *
        omega

/-- The conversion of an integer is exact whenever some finite double denotes the
integer. -/
theorem ofInt_exact_of_representable (i : Int) (hi : i.natAbs < 2 ^ 64) (y : F64)
    (hy : y.finite) (h : y.toRat = some (i : ℚ)) : (F64.ofInt i).toRat = some (i : ℚ) := by
  obtain ⟨hf, r, hr, hex, _⟩ := ofInt_spec i hi
  rw [F64.toRat_of_finite _ hf, hr]
  have h2 : (2 : ℚ) ^ 1074 ≠ 0 := pow_ne_zero _ (by norm_num)
  by_cases h0 : i = 0
  · subst h0
    have : r = 0 := hex (by simp)
    subst this; simp
  · have hnum := F64.num_of_toRat_int y hy i h
    have hsc : y.scaled = i.natAbs * 2 ^ 1074 := by
      unfold F64.num at hnum
      have hpos : (0 : Int) < 2 ^ 1074 := by positivity
      have habs : ((i.natAbs * 2 ^ 1074 : Nat) : Int) = |i| * 2 ^ 1074 := by
        rw [Nat.cast_mul, Int.natCast_natAbs, Nat.cast_pow, Nat.cast_ofNat]
      have hcast : (y.scaled : Int) = ((i.natAbs * 2 ^ 1074 : Nat) : Int) := by
        rw [habs]
        split_ifs at hnum with hs
        · have h3 : (y.scaled : Int) = (-i) * 2 ^ 1074 := by rw [neg_mul, ← hnum, neg_neg]
          have h4 : 0 ≤ (-i) * 2 ^ 1074 := h3 ▸ Int.natCast_nonneg _
          have h5 : 0 ≤ -i := nonneg_of_mul_nonneg_left h4 hpos
          rw [h3, abs_of_nonpos (by omega)]
        · have h4 : 0 ≤ i * 2 ^ 1074 := hnum ▸ Int.natCast_nonneg _
          have h5 : 0 ≤ i := nonneg_of_mul_nonneg_left h4 hpos
          rw [hnum, abs_of_nonneg h5]
      exact_mod_cast hcast
    have := hex (representable_multiple y i.natAbs (Int.natAbs_pos.2 h0) hi hsc)
    subst this
    push_cast
    rw [mul_div_assoc, div_self h2, mul_one]

/-- Widening a finite `float32` keeps the sign bit and the magnitude. -/
theorem ofF32_spec (f : F32) (hf : f.finite) :
    (F64.ofF32 f).finite ∧ (F64.ofF32 f).sign = f.sign ∧
    (F64.ofF32 f).scaled = f.scaled * 2 ^ 925 := by
  obtain ⟨hb, he⟩ := hf
  have hs : f.sign ≤ 1 := by unfold F32.sign; omega
  have hm : f.frac < 2 ^ 23 := Nat.mod_lt _ (by norm_num)
  have hE : f.expo < 256 := Nat.mod_lt _ (by norm_num)
  have hdef : F64.ofF32 f =
      if f.expo = 255 then
        if f.frac = 0 then ⟨f.sign * 2 ^ 63 + 2047 * 2 ^ 52⟩
        else ⟨f.sign * 2 ^ 63 + 2047 * 2 ^ 52 + 2 ^ 51 + (f.frac * 2 ^ 29) % 2 ^ 51⟩
      else if f.expo = 0 then
        if f.frac = 0 then ⟨f.sign * 2 ^ 63⟩
        else ⟨f.sign * 2 ^ 63 + (bitLen 23 f.frac + 873) * 2 ^ 52 +
          (f.frac * 2 ^ (53 - bitLen 23 f.frac) - 2 ^ 52)⟩
      else ⟨f.sign * 2 ^ 63 + (f.expo + 896) * 2 ^ 52 + f.frac * 2 ^ 29⟩ := rfl
  rw [hdef, if_neg he]
  unfold F32.scaled
  by_cases h0 : f.expo = 0
  · rw [if_pos h0, if_pos h0]
    by_cases hm0 : f.frac = 0
    · rw [if_pos hm0, hm0]
      have hb2 : f.sign * 2 ^ 63 = f.sign * 2 ^ 63 + 0 * 2 ^ 52 + 0 := by omega
      rw [hb2]
      obtain ⟨d1, d2, d3, d4⟩ := F64.decode f.sign 0 0 hs (by norm_num) (by norm_num)
      refine ⟨⟨d4, by rw [d2]; omega⟩, d1, ?_⟩
      unfold F64.scaled
      rw [d2, d3]; simp
    · rw [if_neg hm0]
      obtain ⟨hlo, hhi, hl1, hl23⟩ := bitLen_spec 23 f.frac (by omega) hm
      generalize bitLen 23 f.frac = len at *
      have hge : 2 ^ 52 ≤ f.frac * 2 ^ (53 - len) := by
        rw [← pow_merge (len - 1) (53 - len) 52 (by omega)]
        exact Nat.mul_le_mul_right _ hlo
      have hlt2 : f.frac * 2 ^ (53 - len) < 2 ^ 53 := by
        rw [← pow_merge len (53 - len) 53 (by omega)]
        exact Nat.mul_lt_mul_of_pos_right hhi (pow_pos (by norm_num) _)
      have hF : f.frac * 2 ^ (53 - len) - 2 ^ 52 < 2 ^ 52 := by
        have e53 : (2 : Nat) ^ 53 = 2 * 2 ^ 52 := by norm_num
        omega
      obtain ⟨d1, d2, d3, d4⟩ := F64.decode f.sign (len + 873) _ hs (by omega) hF
      refine ⟨⟨d4, by rw [d2]; omega⟩, d1, ?_⟩
      unfold F64.scaled
      rw [d2, d3, if_neg (by omega)]
      have : 2 ^ 52 + (f.frac * 2 ^ (53 - len) - 2 ^ 52) = f.frac * 2 ^ (53 - len) := by omega
      rw [this, Nat.mul_assoc, pow_merge (53 - len) _ 925 (by omega)]
  · rw [if_neg h0, if_neg h0]
    have hF : f.frac * 2 ^ 29 < 2 ^ 52 := by
      rw [← pow_merge 23 29 52 rfl]
      exact Nat.mul_lt_mul_of_pos_right hm (pow_pos (by norm_num) _)
    obtain ⟨d1, d2, d3, d4⟩ := F64.decode f.sign (f.expo + 896) _ hs (by omega) hF
    refine ⟨⟨d4, by rw [d2]; omega⟩, d1, ?_⟩
    unfold F64.scaled
    rw [d2, d3, if_neg (by omega)]
    have e1 : 2 ^ 52 + f.frac * 2 ^ 29 = (2 ^ 23 + f.frac) * 2 ^ 29 := by
      rw [Nat.add_mul, pow_merge 23 29 52 rfl]
    rw [e1, Nat.mul_assoc, Nat.mul_assoc, pow_merge 29 _ (f.expo + 924) (by omega),
      pow_merge (f.expo - 1) 925 (f.expo + 924) (by omega)]

/-- Widening a finite `float32` keeps the number it denotes. -/
theorem ofF32_toRat (f : F32) (hf : f.finite) :
    (F64.ofF32 f).finite ∧ (F64.ofF32 f).toRat = f.toRat := by
  obtain ⟨h1, h2, h3⟩ := ofF32_spec f hf
  refine ⟨h1, ?_⟩
  rw [F64.toRat_of_finite _ h1]
  unfold F32.toRat
  rw [if_neg hf.2]
  have hnum : (F64.ofF32 f).num = f.num * 2 ^ 925 := by
    unfold F64.num F32.num
    rw [h2, h3]
    split_ifs <;> push_cast <;> ring
  rw [hnum]
  congr 1
  push_cast
  have e : (2 : ℚ) ^ 1074 = 2 ^ 925 * 2 ^ 149 := by rw [← pow_add]
  have h925 : (2 : ℚ) ^ 925 ≠ 0 := pow_ne_zero _ (by norm_num)
  have h149 : (2 : ℚ) ^ 149 ≠ 0 := pow_ne_zero _ (by norm_num)
  rw [e]
  field_simp
  ring

theorem numberOf_facts (v : GoValue) (x : ℚ) (ht : v.isTestedNumber = true)
    (hr : v.inRange) (hn : v.number = some x) :
    ∃ d, numberOf v = some d ∧ d.finite ∧
      (d.toRat = some x ∨ ∃ i : Int, i.natAbs < 2 ^ 64 ∧ x = (i : ℚ) ∧ d = F64.ofInt i) := by
  cases v <;> simp only [GoValue.isTestedNumber, Bool.false_eq_true] at ht
  case float64 f =>
    simp only [GoValue.number] at hn
    simp only [GoValue.inRange] at hr
    have hfin : f.finite := by
      refine ⟨hr, ?_⟩
      intro he
      simp [F64.toRat, he] at hn
    exact ⟨f, rfl, hfin, Or.inl hn⟩
  case float32 f =>
    simp only [GoValue.number] at hn
    simp only [GoValue.inRange] at hr
    have hfin : f.finite := by
      refine ⟨hr, ?_⟩
      intro he
      simp [F32.toRat, he] at hn
    obtain ⟨h1, h2⟩ := ofF32_toRat f hfin
    exact ⟨F64.ofF32 f, rfl, h1, Or.inl (h2.trans hn)⟩
  case int i =>
    simp only [GoValue.number, Option.some.injEq] at hn
    simp only [GoValue.inRange] at hr
    have hi : i.natAbs < 2 ^ 64 := by omega
    exact ⟨F64.ofInt i, rfl, (ofInt_spec i hi).1, Or.inr ⟨i, hi, hn.symm, rfl⟩⟩
  case int32 i =>
    simp only [GoValue.number, Option.some.injEq] at hn
    simp only [GoValue.inRange] at hr
    have hi : i.natAbs < 2 ^ 64 := by omega
    exact ⟨F64.ofInt i, rfl, (ofInt_spec i hi).1, Or.inr ⟨i, hi, hn.symm, rfl⟩⟩
  case int64 i =>
    simp only [GoValue.number, Option.some.injEq] at hn
    simp only [GoValue.inRange] at hr
    have hi : i.natAbs < 2 ^ 64 := by omega
    exact ⟨F64.ofInt i, rfl, (ofInt_spec i hi).1, Or.inr ⟨i, hi, hn.symm, rfl⟩⟩
  case uint32 n =>
    simp only [GoValue.number, Option.some.injEq] at hn
    simp only [GoValue.inRange] at hr
    have hi : (n : Int).natAbs < 2 ^ 64 := by omega
    exact ⟨F64.ofInt n, rfl, (ofInt_spec n hi).1, Or.inr ⟨n, hi, by rw [← hn]; simp, rfl⟩⟩
  case uint64 n =>
    simp only [GoValue.number, Option.some.injEq] at hn
    simp only [GoValue.inRange] at hr
    have hi : (n : Int).natAbs < 2 ^ 64 := by omega
    exact ⟨F64.ofInt n, rfl, (ofInt_spec n hi).1, Or.inr ⟨n, hi, by rw [← hn]; simp, rfl⟩⟩

/-- Two accepted inputs that denote the same number are stored as doubles that denote
the same number, and as the same double when the number is not zero. -/
theorem numberOf_same_number (v w : GoValue) (x : ℚ)
    (hv : v.isTestedNumber = true) (hw : w.isTestedNumber = true)
    (rv : v.inRange) (rw1 : w.inRange) (nv : v.number = some x) (nw : w.number = some x) :
    ∃ d1 d2, numberOf v = some d1 ∧ numberOf w = some d2 ∧ d1.finite ∧ d2.finite ∧
      d1.toRat = d2.toRat ∧ (x ≠ 0 → d1 = d2) := by
  obtain ⟨d1, e1, f1, c1⟩ := numberOf_facts v x hv rv nv
  obtain ⟨d2, e2, f2, c2⟩ := numberOf_facts w x hw rw1 nw
  have fin : ∀ a b : F64, a.finite → b.finite → a.toRat = some x → b.toRat = some x →
      a.toRat = b.toRat ∧ (x ≠ 0 → a = b) := by
    intro a b ha hb h1 h2
    refine ⟨h1.trans h2.symm, fun hx => F64.eq_of_toRat a b ha hb (h1.trans h2.symm) ?_⟩
    rw [h1]
    intro h3
    exact hx (Option.some.inj h3)
  refine ⟨d1, d2, e1, e2, f1, f2, ?_⟩
  rcases c1 with c1 | ⟨i, hi, xi, di⟩
  · rcases c2 with c2 | ⟨j, hj, xj, dj⟩
    · exact fin d1 d2 f1 f2 c1 c2
    · subst dj
      have := ofInt_exact_of_representable j hj d1 f1 (xj ▸ c1)
      exact fin d1 _ f1 f2 c1 (xj ▸ this)
  · rcases c2 with c2 | ⟨j, hj, xj, dj⟩
    · subst di
      have := ofInt_exact_of_representable i hi d2 f2 (xi ▸ c2)
      exact fin _ d2 f1 f2 (xi ▸ this) c2
    · have hij : i = j := by
        have : (i : ℚ) = (j : ℚ) := xi.symm.trans xj
        exact_mod_cast this
      subst hij
      subst di
      subst dj
      exact ⟨rfl, fun _ => rfl⟩

theorem bitLen_le_of_lt (n : Nat) (hn : 0 < n) (h : n < 2 ^ 53) : bitLen 64 n ≤ 53 := by
  obtain ⟨hlo, _, _, _⟩ := bitLen_spec 64 n hn (lt_trans h (by norm_num))
  by_contra hc
  have : 2 ^ 53 ≤ 2 ^ (bitLen 64 n - 1) := Nat.pow_le_pow_right (by norm_num) (by omega)
  omega

/-- The conversion of an integer denotes an integer at most half a unit in the last
place away, and the integer itself when its magnitude is below `2 ^ 53`. -/
theorem ofInt_toRat (i : Int) (hi : i.natAbs < 2 ^ 64) :
    (F64.ofInt i).finite ∧
    ∃ r : Int, (F64.ofInt i).toRat = some (r : ℚ) ∧
      (i.natAbs < 2 ^ 53 → r = i) ∧
      2 * (r - i).natAbs ≤ 2 ^ (bitLen 64 i.natAbs - 53) := by
  obtain ⟨hf, r, hr, hex, hb⟩ := ofInt_spec i hi
  refine ⟨hf, r, ?_, ?_, hb⟩
  · rw [F64.toRat_of_finite _ hf, hr]
    have h2 : (2 : ℚ) ^ 1074 ≠ 0 := pow_ne_zero _ (by norm_num)
    push_cast
    rw [mul_div_assoc, div_self h2, mul_one]
  · intro hsmall
    apply hex
    by_cases h0 : i.natAbs = 0
    · rw [h0]; simp
    · have := bitLen_le_of_lt i.natAbs (by omega) hsmall
      have e : bitLen 64 i.natAbs - 53 = 0 := by omega
      rw [e]; simp [Nat.mod_one]

theorem setValue_ok_canonical (row row1 : Datom) (val : GoValue)
    (h : row.setValue val = (none, row1)) : row1.Value = canonicalValue val := by
  unfold Datom.setValue at h
  split_ifs at h with h1 h2 h3 h4
  · cases val <;> simp at h
    subst h; simp [Datom.Value, h1, canonicalValue, DataType.String, DataType.Number]
  · cases val <;> simp at h
    subst h; simp [Datom.Value, h2, canonicalValue, DataType.String, DataType.Number,
      DataType.Boolean]
  · cases val <;> simp at h
    subst h; simp [Datom.Value, h3, canonicalValue, DataType.String, DataType.Number,
      DataType.Boolean, DataType.Time]
  · cases val <;> simp [numberOf] at h <;> subst h <;>
      simp [Datom.Value, h4, canonicalValue]
  · simp at h

theorem setValue_Number_of_numberOf (row : Datom) (v : GoValue) (d : F64)
    (h : row.dataType = DataType.Number) (hd : numberOf v = some d) :
    row.setValue v = (none, { row with numberVal := ⟨d, true⟩ }) ∧
    (row.setValue v).2.Value = .float64 d := by
  simp [Datom.setValue, Datom.Value, h, hd, DataType.String, DataType.Number,
    DataType.Boolean, DataType.Time]

/-- C6. After a `setValue` that succeeds on a datom of a supported datatype, `Value`
returns the canonical value of the input.  A string, a boolean and a time are
accepted by the datom of their kind and come back unchanged; a `Number` datom accepts
`int`, `int32`, `int64`, `uint32`, `uint64`, `float32` and `float64` and returns the
conversion to `float64`; the seven representations of 1 give the same double.  Any two
accepted inputs within the range of their types that denote the same number give
doubles that denote the same number (they are equal for `==`), and the same bit
pattern unless the number is zero.  The conversion of a finite `float32` denotes the
same number; the conversion of an integer denotes an integer at most half a unit in the
last place away, the integer itself below `2 ^ 53` in magnitude. -/
theorem setValue_Value_roundtrip (row : Datom) :
    (∀ val row1, row.dataType.supported → row.setValue val = (none, row1) →
      row1.Value = canonicalValue val) ∧
    (row.dataType = DataType.String → ∀ s,
      (row.setValue (.string s)).1 = none ∧ (row.setValue (.string s)).2.Value = .string s) ∧
    (row.dataType = DataType.Boolean → ∀ b,
      (row.setValue (.bool b)).1 = none ∧ (row.setValue (.bool b)).2.Value = .bool b) ∧
    (row.dataType = DataType.Time → ∀ t,
      (row.setValue (.time t)).1 = none ∧ (row.setValue (.time t)).2.Value = .time t) ∧
    (row.dataType = DataType.Number →
      (∀ v, (row.setValue (.int v)).1 = none ∧
        (row.setValue (.int v)).2.Value = .float64 (F64.ofInt v)) ∧
      (∀ v, (row.setValue (.int32 v)).1 = none ∧
        (row.setValue (.int32 v)).2.Value = .float64 (F64.ofInt v)) ∧
      (∀ v, (row.setValue (.int64 v)).1 = none ∧
        (row.setValue (.int64 v)).2.Value = .float64 (F64.ofInt v)) ∧
      (∀ v, (row.setValue (.uint32 v)).1 = none ∧
        (row.setValue (.uint32 v)).2.Value = .float64 (F64.ofInt v)) ∧
      (∀ v, (row.setValue (.uint64 v)).1 = none ∧
        (row.setValue (.uint64 v)).2.Value = .float64 (F64.ofInt v)) ∧
      (∀ v, (row.setValue (.float32 v)).1 = none ∧
        (row.setValue (.float32 v)).2.Value = .float64 (F64.ofF32 v)) ∧
      (∀ v, (row.setValue (.float64 v)).1 = none ∧
        (row.setValue (.float64 v)).2.Value = .float64 v) ∧
      ∀ one ∈ [GoValue.int 1, .int32 1, .int64 1, .uint32 1, .uint64 1,
          .float32 F32.one, .float64 F64.one],
        (row.setValue one).1 = none ∧ (row.setValue one).2.Value = .float64 F64.one) ∧
    (row.dataType = DataType.Number → ∀ (v w : GoValue) (x : ℚ),
      v.isTestedNumber = true → w.isTestedNumber = true → v.inRange → w.inRange →
      v.number = some x → w.number = some x →
      ∃ d1 d2, (row.setValue v).1 = none ∧ (row.setValue v).2.Value = .float64 d1 ∧
        (row.setValue w).1 = none ∧ (row.setValue w).2.Value = .float64 d2 ∧
        d1.toRat = d2.toRat ∧ (x ≠ 0 → d1 = d2)) ∧
    (∀ f : F32, f.finite → (F64.ofF32 f).finite ∧ (F64.ofF32 f).toRat = f.toRat) ∧
    (∀ i : Int, i.natAbs < 2 ^ 64 →
      (F64.ofInt i).finite ∧
      ∃ r : Int, (F64.ofInt i).toRat = some (r : ℚ) ∧ (i.natAbs < 2 ^ 53 → r = i) ∧
        2 * (r - i).natAbs ≤ 2 ^ (bitLen 64 i.natAbs - 53)) := by
  refine ⟨fun val row1 _ h => setValue_ok_canonical row row1 val h, ?_, ?_, ?_, ?_, ?_,
    fun f hf => ofF32_toRat f hf, fun i hi => ofInt_toRat i hi⟩
  · intro h s
    simp [Datom.setValue, Datom.Value, h, DataType.String, DataType.Number]
  · intro h b
    simp [Datom.setValue, Datom.Value, h, DataType.String, DataType.Number, DataType.Boolean]
  · intro h t
    simp [Datom.setValue, Datom.Value, h, DataType.String, DataType.Number, DataType.Boolean,
      DataType.Time]
  · intro h
    have e1 : F64.ofInt 1 = F64.one := by decide
    have e2 : F64.ofF32 F32.one = F64.one := by decide
    have e3 : F64.ofInt ((1 : Nat) : Int) = F64.one := by decide
    simp [Datom.setValue, Datom.Value, h, DataType.String, DataType.Number, DataType.Boolean,
      DataType.Time, numberOf, e1, e2, e3]
  · intro h v w x hv hw rv rw1 nv nw
    obtain ⟨d1, d2, e1, e2, _, _, ht, hx⟩ := numberOf_same_number v w x hv hw rv rw1 nv nw
    obtain ⟨a1, a2⟩ := setValue_Number_of_numberOf row v d1 h e1
    obtain ⟨b1, b2⟩ := setValue_Number_of_numberOf row w d2 h e2
    exact ⟨d1, d2, by rw [a1], a2, by rw [b1], b2, ht, hx⟩

/-- C6, at the datom of `TestNumberCoercion`: the input `int(1)`, and the inputs
`float32(2)` and `uint64(2)`, which denote the same number and give the same double. -/
theorem setValue_Value_roundtrip_witness :
    numberDatom.dataType.supported ∧
    numberDatom.setValue (.int 1) =
      (none, { numberDatom with numberVal := ⟨F64.one, true⟩ }) ∧
    ({ numberDatom with numberVal := ⟨F64.one, true⟩ } : Datom).Value =
      canonicalValue (.int 1) ∧
    (GoValue.float32 ⟨0x40000000⟩).number = some 2 ∧ (GoValue.uint64 2).number = some 2 ∧
    ∃ d1 d2, (numberDatom.setValue (.float32 ⟨0x40000000⟩)).1 = none ∧
      (numberDatom.setValue (.float32 ⟨0x40000000⟩)).2.Value = .float64 d1 ∧
      (numberDatom.setValue (.uint64 2)).1 = none ∧
      (numberDatom.setValue (.uint64 2)).2.Value = .float64 d2 ∧
      d1.toRat = d2.toRat ∧ ((2 : ℚ) ≠ 0 → d1 = d2) :=
  have n32 : (GoValue.float32 ⟨0x40000000⟩).number = some 2 := by
    have e1 : (⟨0x40000000⟩ : F32).expo = 128 := by decide
    have e2 : (⟨0x40000000⟩ : F32).sign = 0 := by decide
    have e3 : (⟨0x40000000⟩ : F32).frac = 0 := by decide
    simp only [GoValue.number, F32.toRat, F32.num, F32.scaled, e1, e2, e3]
    norm_num
  have n64 : (GoValue.uint64 2).number = some 2 := by
    simp [GoValue.number]
  ⟨by decide, by decide,
    (setValue_Value_roundtrip numberDatom).1 (.int 1) _ (by decide) (by decide),
    n32, n64,
    (setValue_Value_roundtrip numberDatom).2.2.2.2.2.1 rfl (.float32 ⟨0x40000000⟩)
      (.uint64 2) 2 rfl rfl (by simp [GoValue.inRange]) (by simp [GoValue.inRange]) n32 n64⟩


/-- C7. A `String`, `Boolean` or `Time` datom given an input that is not a string, a
bool or a time respectively, and a `Number` datom given a non-numeric input, fail
with `Cannot assign <native type of input> to <datatype name>`, and the datom is left
as it was, all four value slots included. -/
theorem setValue_type_mismatch (row : Datom) (val : GoValue)
    (h : (row.dataType = DataType.String ∧ ∀ s, val ≠ .string s) ∨
      (row.dataType = DataType.Boolean ∧ ∀ b, val ≠ .bool b) ∨
      (row.dataType = DataType.Time ∧ ∀ t, val ≠ .time t) ∨
      (row.dataType = DataType.Number ∧ val.isNumeric = false)) :
    row.setValue val =
      (some (.errorString
        ("Cannot assign " ++ val.typeName ++ " to " ++ dataTypeString row.dataType)), row) ∧
    (row.setValue val).2.stringVal = row.stringVal ∧
    (row.setValue val).2.numberVal = row.numberVal ∧
    (row.setValue val).2.booleanVal = row.booleanVal ∧
    (row.setValue val).2.timeVal = row.timeVal := by
  have key : row.setValue val = (some (badType val row.dataType), row) := by
    rcases h with ⟨h, hv⟩ | ⟨h, hv⟩ | ⟨h, hv⟩ | ⟨h, hv⟩
    · cases val <;>
        simp_all [Datom.setValue, DataType.String, DataType.Number, DataType.Boolean,
          DataType.Time]
    · cases val <;>
        simp_all [Datom.setValue, DataType.String, DataType.Number, DataType.Boolean,
          DataType.Time]
    · cases val <;>
        simp_all [Datom.setValue, DataType.String, DataType.Number, DataType.Boolean,
          DataType.Time]
    · cases val <;>
        simp_all [Datom.setValue, DataType.String, DataType.Number, DataType.Boolean,
          DataType.Time, numberOf, GoValue.isNumeric]
  rw [key]
  exact ⟨rfl, rfl, rfl, rfl, rfl⟩

/-- C7, at the last case of `TestNumberCoercion`: `Cannot assign string to Number`. -/
theorem setValue_type_mismatch_witness :
    numberDatom.setValue (.string "wat") =
      (some (.errorString "Cannot assign string to Number"), numberDatom) :=
  (setValue_type_mismatch numberDatom (.string "wat")
    (Or.inr (Or.inr (Or.inr ⟨rfl, rfl⟩)))).1

/-- C8, refuted as stated: the native integers `int8`, `int16`, `uint`, `uint8` and
`uint16` are numeric, and a `Number` datom rejects each of them. -/
theorem setValue_Number_rejects_narrow_integers :
    (GoValue.int8 1).isNumeric = true ∧ (GoValue.int16 1).isNumeric = true ∧
    (GoValue.uint 1).isNumeric = true ∧ (GoValue.uint8 1).isNumeric = true ∧
    (GoValue.uint16 1).isNumeric = true ∧
    numberDatom.setValue (.int8 1) =
      (some (.errorString "Cannot assign int8 to Number"), numberDatom) ∧
    numberDatom.setValue (.int16 1) =
      (some (.errorString "Cannot assign int16 to Number"), numberDatom) ∧
    numberDatom.setValue (.uint 1) =
      (some (.errorString "Cannot assign uint to Number"), numberDatom) ∧
    numberDatom.setValue (.uint8 1) =
      (some (.errorString "Cannot assign uint8 to Number"), numberDatom) ∧
    numberDatom.setValue (.uint16 1) =
      (some (.errorString "Cannot assign uint16 to Number"), numberDatom) := by
  decide

/-- C8, amended. A `Number` datom accepts exactly the inputs of type `float64`,
`float32`, `int`, `int32`, `int64`, `uint32` and `uint64`, and stores their conversion
to `float64`; every other input, the narrower integers and `uint` included, fails
with the type-mismatch error and changes nothing. -/
theorem setValue_Number_accepts_seven_types (row : Datom) (val : GoValue)
    (h : row.dataType = DataType.Number) :
    (val.isTestedNumber = true →
      ∃ f, canonicalValue val = .float64 f ∧
        row.setValue val = (none, { row with numberVal := ⟨f, true⟩ }) ∧
        (row.setValue val).2.Value = .float64 f) ∧
    (val.isTestedNumber = false →
      row.setValue val = (some (badType val DataType.Number), row)) := by
  constructor
  · intro hv
    cases val <;>
      simp_all [Datom.setValue, Datom.Value, DataType.String, DataType.Number,
        DataType.Boolean, DataType.Time, numberOf, GoValue.isTestedNumber, canonicalValue]
  · intro hv
    cases val <;>
      simp_all [Datom.setValue, DataType.String, DataType.Number, DataType.Boolean,
        DataType.Time, numberOf, GoValue.isTestedNumber]

/-- C8 amended, at `uint64(1)` and at `uint16(1)`. -/
theorem setValue_Number_accepts_seven_types_witness :
    numberDatom.setValue (.uint64 1) =
      (none, { numberDatom with numberVal := ⟨F64.one, true⟩ }) ∧
    numberDatom.setValue (.uint16 1) =
      (some (badType (.uint16 1) DataType.Number), numberDatom) :=
  ⟨by decide,
    (setValue_Number_accepts_seven_types numberDatom (.uint16 1) rfl).2 rfl⟩

/-! ## Theorems on single calls -/

/-- C10, the code at the failing input.  `Retract` of the two datoms of entity `1`,
with the adapter failing the first delete (call 1, after `Prepare`) and serving the
second: `Retract` returns no error and the row `label` is still in the table; so does
`ForgetEntity` (the failing delete is then call 2).  `Assert` under the same plan
returns the error of the adapter. -/
theorem Retract_loses_error_of_earlier_delete :
    (New 1).Retract (failsAt 1) twoFactsDb twoFacts =
      (none, { New 1 with retractStmt := true },
        ⟨⟨[⟨1, DataType.String, "label"⟩, ⟨1, DataType.String, "other"⟩],
          [⟨1, "1", "label", some "whatever", none, none, none⟩]⟩, 3⟩) ∧
    (New 1).ForgetEntity (failsAt 2) twoFactsDb "1" =
      (none, { New 1 with retractStmt := true },
        ⟨⟨[⟨1, DataType.String, "label"⟩, ⟨1, DataType.String, "other"⟩],
          [⟨1, "1", "label", some "whatever", none, none, none⟩]⟩, 4⟩) ∧
    ((New 1).Assert pgColumns (failsAt 1) twoFactsDb twoFacts).1 = some connectionLost := by
  decide

/-- C4, the code at the failing input.  In `labelDb` the attribute `label` of store 1 is
a `String`; `DefineAttribute("label", Number)` returns the attribute with datatype
`Number` and no error, and `Schema()` afterwards maps `label` to `Number`. -/
theorem DefineAttribute_overwrites_datatype :
    ((New 1).Schema noFaults labelDb).1.toOption.map (fun m => m "label") =
      some (some ⟨1, 0, "label", DataType.String⟩) ∧
    ((New 1).DefineAttribute noFaults labelDb "label" DataType.Number).1 =
      .ok ⟨1, 0, "label", DataType.Number⟩ ∧
    ((New 1).Schema noFaults
        ((New 1).DefineAttribute noFaults labelDb "label" DataType.Number).2).1.toOption.map
      (fun m => m "label") = some (some ⟨1, 0, "label", DataType.Number⟩) := by
  decide

theorem call_served {α : Type} (plan : Faults) (db : Handle) (f : Tables → α × Tables)
    (h : plan db.calls = none) :
    db.call plan (fun t => .ok (f t)) =
      (.ok (f db.tables).1, ⟨(f db.tables).2, db.calls + 1⟩) := by
  simp [Handle.call, h]

theorem call_fault {α : Type} (plan : Faults) (db : Handle)
    (run : Tables → Except GoError (α × Tables)) (e : GoError) (h : plan db.calls = some e) :
    db.call plan run = (.error e, ⟨db.tables, db.calls + 1⟩) := by
  simp [Handle.call, h]

/-- The check of `DefineAttribute` against the returned datatype never fires: whenever
the adapter serves the statement, the call succeeds with the requested datatype. -/
theorem DefineAttribute_ok_of_served (plan : Faults) (store : Store) (db : Handle)
    (name : String) (dataType : DataType) (h : plan db.calls = none) :
    (store.DefineAttribute plan db name dataType).1 =
      .ok ⟨store.storeID, 0, name, dataType⟩ := by
  unfold Store.DefineAttribute
  rw [call_served plan db _ h]
  unfold upsertSchema
  split_ifs <;> simp

/-! ## The calls when the adapter serves them, and the tables after them -/

theorem foldl_mapSet_apply {α β : Type} (key : α → String) (val : α → β) (l : List α) :
    ∀ (m0 : String → Option β) (k : String),
      (l.foldl (fun m x => mapSet m (key x) (val x)) m0) k =
        ((l.reverse.find? (fun x => key x = k)).map val).or (m0 k) := by
  induction l with
  | nil => intro m0 k; simp
  | cons x xs ih =>
    intro m0 k
    rw [List.foldl_cons, ih]
    simp only [List.reverse_cons, List.find?_append, List.find?_singleton]
    cases h : xs.reverse.find? (fun x => decide (key x = k)) with
    | some y => simp
    | none =>
      by_cases hk : key x = k
      · simp [mapSet, hk]
      · have hk2 : ¬ k = key x := fun h => hk h.symm
        simp [mapSet, hk, hk2]

theorem Schema_served (plan : Faults) (store : Store) (db : Handle)
    (h : plan db.calls = none) :
    store.Schema plan db =
      (.ok (schemaView store.storeID db.tables), ⟨db.tables, db.calls + 1⟩) := by
  unfold Store.Schema
  rw [call_served plan db _ h]
  simp only [Prod.mk.injEq, Except.ok.injEq, and_true]
  funext k
  rw [foldl_mapSet_apply (fun r : String × DataType => r.1)
    (fun r => (⟨store.storeID, 0, r.1, r.2⟩ : Attribute))]
  simp only [selectSchema, schemaView, schemaRow, mapEmpty, Option.or_none]
  rw [← List.map_reverse, List.find?_map, ← List.filter_reverse, List.find?_filter]
  simp only [Option.map_map]
  congr 1
  congr 1
  funext r
  simp [Function.comp]

theorem readDatoms_served (plan : Faults) (store : Store) (db : Handle) (e : EntityId)
    (h : plan db.calls = none) :
    store.readDatoms plan db e =
      (.ok ((selectDatoms store.storeID e db.tables).map (scanDatom e)),
        ⟨db.tables, db.calls + 1⟩) := by
  unfold Store.readDatoms
  rw [call_served plan db _ h]

theorem joinRows_find (sid : Nat) (e : EntityId) (k : String) (S : List SchemaRow)
    (d : DatomRow) :
    (((S.filter (fun s => d.attribute_name = s.name ∧ s.store_id = sid)).map
        (fun s => (⟨d.stringval, d.numberval, d.booleanval, d.timeval, s.datatype,
          s.name⟩ : DatomResult))).map (scanDatom e)).reverse.find?
        (fun x => x.attributeName = k) =
      if d.attribute_name = k then
        (S.reverse.find? (fun r => r.store_id = sid ∧ r.name = k)).map (joinDatom e d)
      else none := by
  rw [List.map_map, ← List.map_reverse, List.find?_map, ← List.filter_reverse,
    List.find?_filter]
  by_cases hk : d.attribute_name = k
  · rw [if_pos hk]
    have hF : (scanDatom e ∘ fun s : SchemaRow =>
        (⟨d.stringval, d.numberval, d.booleanval, d.timeval, s.datatype,
          s.name⟩ : DatomResult)) = joinDatom e d := rfl
    rw [hF]
    congr 2
    funext a
    simp only [Function.comp, scanDatom, joinDatom]
    by_cases h1 : a.name = k
    · by_cases h2 : a.store_id = sid <;> simp [h1, h2, hk]
    · have : ¬ d.attribute_name = a.name := fun h => h1 (h ▸ hk)
      simp [h1, this]
  · rw [if_neg hk]
    simp only [Option.map_eq_none', List.find?_eq_none]
    intro x _
    simp only [Function.comp, scanDatom]
    by_cases h1 : d.attribute_name = x.name
    · have : ¬ x.name = k := fun h => hk (h1 ▸ h)
      simp [this]
    · simp [h1]

theorem selectDatoms_find (sid : Nat) (e : EntityId) (k : String) (t : Tables) :
    ((selectDatoms sid e t).map (scanDatom e)).reverse.find? (fun x => x.attributeName = k) =
      datomView sid e t k := by
  unfold selectDatoms datomView datomRow schemaRow
  generalize t.eav_datoms = L
  induction L with
  | nil => simp
  | cons d L ih =>
    simp only [List.reverse_cons, List.find?_append, List.find?_singleton]
    by_cases hP : d.store_id = sid ∧ d.entity_id = e
    · rw [List.filter_cons_of_pos (by simpa using hP)]
      simp only [List.flatMap_cons, List.map_append, List.reverse_append, List.find?_append]
      rw [ih, joinRows_find]
      cases hS : t.eav_schema.reverse.find? (fun r => decide (r.store_id = sid ∧ r.name = k)) with
      | none => simp
      | some s =>
        cases hD : L.reverse.find? (fun d => decide (d.store_id = sid ∧ d.entity_id = e ∧
            d.attribute_name = k)) with
        | some d1 => simp
        | none =>
          by_cases hk : d.attribute_name = k
          · simp [hk, hP.1, hP.2]
          · simp [hk]
    · rw [List.filter_cons_of_neg (by simpa using hP)]
      rw [ih]
      have : ¬ (d.store_id = sid ∧ d.entity_id = e ∧ d.attribute_name = k) :=
        fun h => hP ⟨h.1, h.2.1⟩
      simp [this]

theorem setValue_error_eq (row : Datom) (val : GoValue) (err : GoError) (row1 : Datom)
    (h : row.setValue val = (some err, row1)) : err = badType val row.dataType := by
  unfold Datom.setValue at h
  split_ifs at h
  · split at h <;> simp at h; exact h.1.symm
  · split at h <;> simp at h; exact h.1.symm
  · split at h <;> simp at h; exact h.1.symm
  · split at h <;> simp at h; exact h.1.symm
  · simp at h; exact h.1.symm

theorem stage_spec (schemas : Schema) (dm : String → Option Datom) (eId : EntityId) :
    ∀ (l : List (String × GoValue)) (st0 st : Staged),
      Store.stage schemas dm eId l st0 = .ok st → (l.map Prod.fst).Nodup →
      (∀ k, (∀ v, (k, v) ∈ l →
            (v = GoValue.nil → st.attrs k = none) ∧
            (v ≠ GoValue.nil → ∃ a d, schemas k = some a ∧
              (Datom.lit eId k a.DataType).setValue v = (none, d) ∧
              st.attrs k = some d.Value)) ∧
          (k ∉ l.map Prod.fst → st.attrs k = st0.attrs k)) ∧
      (∀ d, d ∈ st.retractions ↔
        d ∈ st0.retractions ∨ ∃ k, (k, GoValue.nil) ∈ l ∧ dm k = some d) ∧
      (∀ d, d ∈ st.assertions ↔
        d ∈ st0.assertions ∨ ∃ k v a, (k, v) ∈ l ∧ v ≠ GoValue.nil ∧ schemas k = some a ∧
          (Datom.lit eId k a.DataType).setValue v = (none, d)) ∧
      (∀ kv ∈ l, schemas kv.1 ≠ none) := by
  intro l
  induction l with
  | nil =>
    intro st0 st h _
    simp only [Store.stage, Except.ok.injEq] at h
    subst h
    simp
  | cons kv rest ih =>
    intro st0 st h hnd
    obtain ⟨k0, v0⟩ := kv
    simp only [List.map_cons, List.nodup_cons] at hnd
    obtain ⟨hk0, hnd⟩ := hnd
    have hk0' : ∀ v, (k0, v) ∉ rest := fun v hv => hk0 (List.mem_map_of_mem Prod.fst hv)
    simp only [Store.stage] at h
    split at h
    · simp at h
    · rename_i schema hschema
      split_ifs at h with hv
      · -- removal
        subst hv
        split at h
        · rename_i oldDatom hold
          obtain ⟨h1, h2, h3, h4⟩ := ih _ st h hnd
          refine ⟨?_, ?_, ?_, ?_⟩
          · intro k
            constructor
            · intro v hmem
              rcases List.mem_cons.1 hmem with heq | hmem
              · obtain ⟨rfl, rfl⟩ := Prod.mk.inj heq
                refine ⟨fun _ => ?_, fun hne => absurd rfl hne⟩
                rw [(h1 k).2 hk0]; simp [mapDelete]
              · exact (h1 k).1 v hmem
            · intro hk
              simp only [List.map_cons, List.mem_cons, not_or] at hk
              rw [(h1 k).2 hk.2]; simp [mapDelete, hk.1]
          · intro d
            rw [h2 d]
            simp only [List.mem_append, List.mem_singleton]
            simp only [List.mem_cons, Prod.mk.injEq]
            constructor
            · rintro ((hd | rfl) | ⟨k, hk, hdm⟩)
              · exact Or.inl hd
              · exact Or.inr ⟨k0, Or.inl ⟨rfl, trivial⟩, hold⟩
              · exact Or.inr ⟨k, Or.inr hk, hdm⟩
            · rintro (hd | ⟨k, (⟨rfl, _⟩ | hk), hdm⟩)
              · exact Or.inl (Or.inl hd)
              · rw [hold] at hdm; exact Or.inl (Or.inr (Option.some.inj hdm).symm)
              · exact Or.inr ⟨k, hk, hdm⟩
          · intro d
            rw [h3 d]
            simp only [List.mem_cons, Prod.mk.injEq]
            constructor
            · rintro (hd | ⟨k, v, a, hk, hrest⟩)
              · exact Or.inl hd
              · exact Or.inr ⟨k, v, a, Or.inr hk, hrest⟩
            · rintro (hd | ⟨k, v, a, (⟨rfl, rfl⟩ | hk), hne, hrest⟩)
              · exact Or.inl hd
              · exact absurd rfl hne
              · exact Or.inr ⟨k, v, a, hk, hne, hrest⟩
          · intro kv hkv
            rcases List.mem_cons.1 hkv with rfl | hkv
            · simp [hschema]
            · exact h4 kv hkv
        · rename_i hold
          obtain ⟨h1, h2, h3, h4⟩ := ih _ st h hnd
          refine ⟨?_, ?_, ?_, ?_⟩
          · intro k
            constructor
            · intro v hmem
              rcases List.mem_cons.1 hmem with heq | hmem
              · obtain ⟨rfl, rfl⟩ := Prod.mk.inj heq
                refine ⟨fun _ => ?_, fun hne => absurd rfl hne⟩
                rw [(h1 k).2 hk0]; simp [mapDelete]
              · exact (h1 k).1 v hmem
            · intro hk
              simp only [List.map_cons, List.mem_cons, not_or] at hk
              rw [(h1 k).2 hk.2]; simp [mapDelete, hk.1]
          · intro d
            rw [h2 d]
            simp only [List.mem_cons, Prod.mk.injEq]
            constructor
            · rintro (hd | ⟨k, hk, hdm⟩)
              · exact Or.inl hd
              · exact Or.inr ⟨k, Or.inr hk, hdm⟩
            · rintro (hd | ⟨k, (⟨rfl, _⟩ | hk), hdm⟩)
              · exact Or.inl hd
              · rw [hold] at hdm; exact absurd hdm (by simp)
              · exact Or.inr ⟨k, hk, hdm⟩
          · intro d
            rw [h3 d]
            simp only [List.mem_cons, Prod.mk.injEq]
            constructor
            · rintro (hd | ⟨k, v, a, hk, hrest⟩)
              · exact Or.inl hd
              · exact Or.inr ⟨k, v, a, Or.inr hk, hrest⟩
            · rintro (hd | ⟨k, v, a, (⟨rfl, rfl⟩ | hk), hne, hrest⟩)
              · exact Or.inl hd
              · exact absurd rfl hne
              · exact Or.inr ⟨k, v, a, hk, hne, hrest⟩
          · intro kv hkv
            rcases List.mem_cons.1 hkv with rfl | hkv
            · simp [hschema]
            · exact h4 kv hkv
      · -- assignment
        split at h
        · simp at h
        · rename_i datom hset
          obtain ⟨h1, h2, h3, h4⟩ := ih _ st h hnd
          refine ⟨?_, ?_, ?_, ?_⟩
          · intro k
            constructor
            · intro v hmem
              rcases List.mem_cons.1 hmem with heq | hmem
              · obtain ⟨rfl, rfl⟩ := Prod.mk.inj heq
                refine ⟨fun h0 => absurd h0 hv, fun _ => ⟨schema, datom, hschema, hset, ?_⟩⟩
                rw [(h1 k).2 hk0]; simp [mapSet]
              · exact (h1 k).1 v hmem
            · intro hk
              simp only [List.map_cons, List.mem_cons, not_or] at hk
              rw [(h1 k).2 hk.2]; simp [mapSet, hk.1]
          · intro d
            rw [h2 d]
            simp only [List.mem_cons, Prod.mk.injEq]
            constructor
            · rintro (hd | ⟨k, hk, hdm⟩)
              · exact Or.inl hd
              · exact Or.inr ⟨k, Or.inr hk, hdm⟩
            · rintro (hd | ⟨k, (⟨rfl, h0⟩ | hk), hdm⟩)
              · exact Or.inl hd
              · exact absurd h0.symm hv
              · exact Or.inr ⟨k, hk, hdm⟩
          · intro d
            rw [h3 d]
            simp only [List.mem_append, List.mem_singleton]
            simp only [List.mem_cons, Prod.mk.injEq]
            constructor
            · rintro ((hd | rfl) | ⟨k, v, a, hk, hrest⟩)
              · exact Or.inl hd
              · exact Or.inr ⟨k0, v0, schema, Or.inl ⟨rfl, rfl⟩, hv, hschema, hset⟩
              · exact Or.inr ⟨k, v, a, Or.inr hk, hrest⟩
            · rintro (hd | ⟨k, v, a, (⟨rfl, rfl⟩ | hk), hne, ha, hsv⟩)
              · exact Or.inl (Or.inl hd)
              · rw [hschema] at ha
                cases ha
                rw [hset] at hsv
                exact Or.inl (Or.inr (Prod.mk.inj hsv).2.symm)
              · exact Or.inr ⟨k, v, a, hk, hne, ha, hsv⟩
          · intro kv hkv
            rcases List.mem_cons.1 hkv with rfl | hkv
            · simp [hschema]
            · exact h4 kv hkv

theorem datomRow_deleteDatom (sid : Nat) (e : EntityId) (k : String) (t : Tables)
    (sid1 : Nat) (e1 : EntityId) (k1 : String) :
    datomRow sid1 e1 k1 (deleteDatom sid e k t) =
      if sid1 = sid ∧ e1 = e ∧ k1 = k then none else datomRow sid1 e1 k1 t := by
  unfold datomRow deleteDatom
  simp only [← List.filter_reverse, List.find?_filter]
  by_cases h : sid1 = sid ∧ e1 = e ∧ k1 = k
  · rw [if_pos h]
    obtain ⟨rfl, rfl, rfl⟩ := h
    simp only [List.find?_eq_none]
    intro x _
    simp only [decide_not, decide_eq_true_eq, Bool.not_eq_true', decide_eq_false_iff_not,
      Bool.and_eq_true, not_and]
    tauto
  · rw [if_neg h]
    congr 1
    funext d
    by_cases hd : d.store_id = sid1 ∧ d.entity_id = e1 ∧ d.attribute_name = k1
    · obtain ⟨rfl, rfl, rfl⟩ := hd
      simp [h]
    · simp [hd]

theorem schemaRow_deleteDatom (sid : Nat) (e : EntityId) (k : String) (t : Tables)
    (sid1 : Nat) (k1 : String) :
    schemaRow sid1 k1 (deleteDatom sid e k t) = schemaRow sid1 k1 t := rfl

theorem writeDatomRow_spec (row : DatomRow) (t t1 : Tables)
    (h : writeDatomRow row t = .ok t1) :
    t1.eav_schema = t.eav_schema ∧
    ∀ sid1 e1 k1, datomRow sid1 e1 k1 t1 =
      if sid1 = row.store_id ∧ e1 = row.entity_id ∧ k1 = row.attribute_name then some row
      else datomRow sid1 e1 k1 t := by
  unfold writeDatomRow at h
  split_ifs at h with hany hfk
  · simp only [Except.ok.injEq] at h
    subst h
    refine ⟨rfl, ?_⟩
    intro sid1 e1 k1
    unfold datomRow
    simp only [← List.map_reverse, List.find?_map]
    have hp : ((fun d : DatomRow => decide (d.store_id = sid1 ∧ d.entity_id = e1 ∧
          d.attribute_name = k1)) ∘ fun d : DatomRow =>
          if d.store_id = row.store_id ∧ d.entity_id = row.entity_id ∧
            d.attribute_name = row.attribute_name then
            { d with stringval := row.stringval, numberval := row.numberval,
                     booleanval := row.booleanval, timeval := row.timeval }
          else d) =
        (fun d : DatomRow => decide (d.store_id = sid1 ∧ d.entity_id = e1 ∧
          d.attribute_name = k1)) := by
      funext d
      simp only [Function.comp]
      split_ifs <;> rfl
    rw [hp]
    by_cases hk : sid1 = row.store_id ∧ e1 = row.entity_id ∧ k1 = row.attribute_name
    · rw [if_pos hk]
      obtain ⟨rfl, rfl, rfl⟩ := hk
      cases hf : List.find? (fun d : DatomRow => decide (d.store_id = row.store_id ∧
          d.entity_id = row.entity_id ∧ d.attribute_name = row.attribute_name))
          t.eav_datoms.reverse with
      | none =>
        exfalso
        rw [List.find?_eq_none] at hf
        rw [List.any_eq_true] at hany
        obtain ⟨x, hx, hpx⟩ := hany
        exact hf x (List.mem_reverse.2 hx) hpx
      | some d =>
        have hd := List.find?_some hf
        simp only [decide_eq_true_eq] at hd
        simp only [Option.map_some', hd, and_self, if_true]
    · rw [if_neg hk]
      cases hf : List.find? (fun d : DatomRow => decide (d.store_id = sid1 ∧
          d.entity_id = e1 ∧ d.attribute_name = k1)) t.eav_datoms.reverse with
      | none => rfl
      | some d =>
        have hd := List.find?_some hf
        simp only [decide_eq_true_eq] at hd
        obtain ⟨rfl, rfl, rfl⟩ := hd
        simp only [Option.map_some']
        rw [if_neg hk]
  · simp only [Except.ok.injEq] at h
    subst h
    refine ⟨rfl, ?_⟩
    intro sid1 e1 k1
    unfold datomRow
    simp only [List.reverse_append, List.reverse_cons, List.reverse_nil, List.nil_append,
      List.singleton_append, List.find?_cons]
    by_cases hk : sid1 = row.store_id ∧ e1 = row.entity_id ∧ k1 = row.attribute_name
    · obtain ⟨rfl, rfl, rfl⟩ := hk
      simp
    · have : ¬ (row.store_id = sid1 ∧ row.entity_id = e1 ∧ row.attribute_name = k1) :=
        fun h => hk ⟨h.1.symm, h.2.1.symm, h.2.2.symm⟩
      simp [hk, this]

theorem schemaRow_isSome_iff (sid : Nat) (k : String) (t : Tables) :
    (schemaRow sid k t).isSome =
      t.eav_schema.any (fun s => s.store_id = sid ∧ s.name = k) := by
  unfold schemaRow
  rw [Bool.eq_iff_iff, List.find?_isSome, List.any_eq_true]
  simp

theorem schemaRow_name (sid : Nat) (k : String) (t : Tables) (s : SchemaRow)
    (h : schemaRow sid k t = some s) : s.store_id = sid ∧ s.name = k := by
  unfold schemaRow at h
  simpa using List.find?_some h

theorem writeDatomRow_ok (row : DatomRow) (t : Tables)
    (h : (schemaRow row.store_id row.attribute_name t).isSome) :
    ∃ t1, writeDatomRow row t = .ok t1 := by
  rw [schemaRow_isSome_iff] at h
  unfold writeDatomRow
  split_ifs
  · exact ⟨_, rfl⟩
  · exact ⟨_, rfl⟩

theorem upsertDatom_spec (cols : Columns) (row : DatomRow) (t t1 : Tables)
    (h : upsertDatom cols row t = .ok t1) :
    t1.eav_schema = t.eav_schema ∧
    ∀ sid1 e1 k1, datomRow sid1 e1 k1 t1 =
      if sid1 = row.store_id ∧ e1 = row.entity_id ∧ k1 = row.attribute_name then
        some (cols.hold row)
      else datomRow sid1 e1 k1 t :=
  writeDatomRow_spec (cols.hold row) t t1 h

theorem upsertDatom_ok (cols : Columns) (row : DatomRow) (t : Tables)
    (h : (schemaRow row.store_id row.attribute_name t).isSome) :
    ∃ t1, upsertDatom cols row t = .ok t1 :=
  writeDatomRow_ok (cols.hold row) t h

theorem retractLoop_noFaults (store : Store) :
    ∀ (rs : List Datom) (err : Option GoError) (db : Handle),
      store.retractLoop noFaults rs err db =
        (if rs = [] then err else none,
          ⟨rs.foldl store.applyRetract db.tables, db.calls + rs.length⟩) := by
  intro rs
  induction rs with
  | nil => intro err db; simp [Store.retractLoop]
  | cons d rs ih =>
    intro err db
    simp only [Store.retractLoop]
    rw [call_served noFaults db _ rfl]
    simp only [ih, List.foldl_cons, List.length_cons, Store.applyRetract]
    by_cases hrs : rs = []
    · subst hrs; simp
    · simp [hrs]; omega

theorem foldl_applyRetract_schema (store : Store) :
    ∀ (rs : List Datom) (t : Tables),
      (rs.foldl store.applyRetract t).eav_schema = t.eav_schema := by
  intro rs
  induction rs with
  | nil => intro t; rfl
  | cons d rs ih => intro t; rw [List.foldl_cons, ih]; rfl

theorem datomRow_foldl_applyRetract (store : Store) (sid1 : Nat) (e1 : EntityId)
    (k1 : String) :
    ∀ (rs : List Datom) (t : Tables),
      datomRow sid1 e1 k1 (rs.foldl store.applyRetract t) =
        if ∃ d ∈ rs, sid1 = store.storeID ∧ e1 = d.entity ∧ k1 = d.attributeName then none
        else datomRow sid1 e1 k1 t := by
  intro rs
  induction rs with
  | nil => intro t; simp
  | cons d rs ih =>
    intro t
    rw [List.foldl_cons, ih]
    simp only [Store.applyRetract, datomRow_deleteDatom, List.exists_mem_cons_iff]
    by_cases h1 : ∃ d ∈ rs, sid1 = store.storeID ∧ e1 = d.entity ∧ k1 = d.attributeName
    · simp [h1]
    · by_cases h2 : sid1 = store.storeID ∧ e1 = d.entity ∧ k1 = d.attributeName
      · simp [h2]
      · simp [h1, h2]

theorem applyAssert_schema (cols : Columns) (store : Store) (t : Tables) (a : Datom) :
    (store.applyAssert cols t a).eav_schema = t.eav_schema := by
  unfold Store.applyAssert
  split
  · rename_i t1 h; exact (upsertDatom_spec _ _ _ _ h).1
  · rfl

theorem foldl_applyAssert_schema (cols : Columns) (store : Store) :
    ∀ (as : List Datom) (t : Tables),
      (as.foldl (store.applyAssert cols) t).eav_schema = t.eav_schema := by
  intro as
  induction as with
  | nil => intro t; rfl
  | cons d as ih => intro t; rw [List.foldl_cons, ih, applyAssert_schema]

theorem schemaRow_congr (sid : Nat) (k : String) (t t1 : Tables)
    (h : t1.eav_schema = t.eav_schema) : schemaRow sid k t1 = schemaRow sid k t := by
  unfold schemaRow; rw [h]

theorem assertLoop_noFaults (cols : Columns) (store : Store) :
    ∀ (as : List Datom) (db : Handle),
      (∀ a ∈ as, (schemaRow store.storeID a.attributeName db.tables).isSome) →
      store.assertLoop cols noFaults as db =
        (none, ⟨as.foldl (store.applyAssert cols) db.tables, db.calls + as.length⟩) := by
  intro as
  induction as with
  | nil => intro db _; simp [Store.assertLoop]
  | cons a as ih =>
    intro db h
    obtain ⟨t1, ht1⟩ := upsertDatom_ok cols (store.assertRow a) db.tables
      (h a (List.mem_cons_self _ _))
    simp only [Store.assertLoop, Handle.call, noFaults, ht1, Except.map]
    rw [ih]
    · simp only [List.foldl_cons, List.length_cons, Store.applyAssert, ht1]
      simp; omega
    · intro b hb
      rw [schemaRow_congr _ _ _ _ (upsertDatom_spec _ _ _ _ ht1).1]
      exact h b (List.mem_cons_of_mem _ hb)

theorem datomRow_foldl_applyAssert (cols : Columns) (store : Store) (sid1 : Nat) (e1 : EntityId)
    (k1 : String) :
    ∀ (as : List Datom) (t : Tables),
      (∀ a ∈ as, (schemaRow store.storeID a.attributeName t).isSome) →
      datomRow sid1 e1 k1 (as.foldl (store.applyAssert cols) t) =
        match as.reverse.find?
          (fun a => sid1 = store.storeID ∧ e1 = a.entity ∧ k1 = a.attributeName) with
        | some a => some (cols.hold (store.assertRow a))
        | none => datomRow sid1 e1 k1 t := by
  intro as
  induction as with
  | nil => intro t _; simp
  | cons a as ih =>
    intro t h
    obtain ⟨t1, ht1⟩ := upsertDatom_ok cols (store.assertRow a) t (h a (List.mem_cons_self _ _))
    have hstep : store.applyAssert cols t a = t1 := by simp [Store.applyAssert, ht1]
    rw [List.foldl_cons, hstep, ih]
    · simp only [List.reverse_cons, List.find?_append, List.find?_singleton]
      cases hf : as.reverse.find?
          (fun a => decide (sid1 = store.storeID ∧ e1 = a.entity ∧ k1 = a.attributeName)) with
      | some b => simp
      | none =>
        simp only [Option.none_or]
        rw [(upsertDatom_spec _ _ _ _ ht1).2]
        by_cases hk : sid1 = store.storeID ∧ e1 = a.entity ∧ k1 = a.attributeName
        · simp [hk, Store.assertRow]
        · simp only [Store.assertRow]
          rw [if_neg hk]
          simp [hk]
    · intro b hb
      rw [schemaRow_congr _ _ _ _ (upsertDatom_spec _ _ _ _ ht1).1]
      exact h b (List.mem_cons_of_mem _ hb)

theorem Schema_fault (plan : Faults) (store : Store) (db : Handle) (e : GoError)
    (h : plan db.calls = some e) :
    store.Schema plan db = (.error e, ⟨db.tables, db.calls + 1⟩) := by
  unfold Store.Schema
  rw [call_fault plan db _ e h]

theorem readDatoms_fault (plan : Faults) (store : Store) (db : Handle) (eId : EntityId)
    (e : GoError) (h : plan db.calls = some e) :
    store.readDatoms plan db eId =
      (.error (.errorString ("read datoms: " ++ e.Error)), ⟨db.tables, db.calls + 1⟩) := by
  unfold Store.readDatoms
  rw [call_fault plan db _ e h]

theorem indexDatoms_eq (l : List Datom) :
    Store.indexDatoms l =
      (fun k => l.reverse.find? (fun x => x.attributeName = k),
       fun k => (l.reverse.find? (fun x => x.attributeName = k)).map Datom.Value) := by
  have gen : ∀ (l : List Datom) (a : String → Option Datom) (b : Attributes),
      l.foldl (fun acc datom =>
        (mapSet acc.1 datom.attributeName datom, mapSet acc.2 datom.attributeName datom.Value))
        (a, b) =
      (l.foldl (fun m x => mapSet m x.attributeName x) a,
       l.foldl (fun m x => mapSet m x.attributeName x.Value) b) := by
    intro l
    induction l with
    | nil => intro a b; rfl
    | cons x xs ih => intro a b; simp only [List.foldl_cons, ih]
  unfold Store.indexDatoms
  rw [gen]
  congr 1
  · funext k
    rw [foldl_mapSet_apply (fun x : Datom => x.attributeName) (fun x => x)]
    simp [mapEmpty]
  · funext k
    rw [foldl_mapSet_apply (fun x : Datom => x.attributeName) Datom.Value]
    simp [mapEmpty]

theorem indexDatoms_rows (sid : Nat) (e : EntityId) (t : Tables) :
    Store.indexDatoms ((selectDatoms sid e t).map (scanDatom e)) =
      (datomView sid e t, attrsView sid e t) := by
  rw [indexDatoms_eq]
  congr 1
  · funext k; exact selectDatoms_find sid e k t
  · funext k; unfold attrsView; rw [← selectDatoms_find sid e k t]

theorem Attributes_served (plan : Faults) (store : Store) (db : Handle) (e : EntityId)
    (h : plan db.calls = none) :
    store.Attributes plan db e =
      (.ok (attrsView store.storeID e db.tables), ⟨db.tables, db.calls + 1⟩) := by
  unfold Store.Attributes
  rw [readDatoms_served plan store db e h]
  simp only [Prod.mk.injEq, Except.ok.injEq, and_true]
  have := indexDatoms_rows store.storeID e db.tables
  rw [indexDatoms_eq] at this
  funext k
  rw [foldl_mapSet_apply (fun x : Datom => x.attributeName) Datom.Value]
  simp only [mapEmpty, Option.or_none]
  exact congrFun (congrArg Prod.snd this) k

/-- What `Update` has done when it returns a map. -/
theorem Update_ok_inv (cols : Columns) (plan : Faults) (store : Store) (db : Handle) (eId : EntityId)
    (newAttrs : List (String × GoValue)) (m : Attributes) (store1 : Store) (db1 : Handle)
    (h : store.Update cols plan db eId newAttrs = (.ok m, store1, db1)) :
    plan db.calls = none ∧ plan (db.calls + 1) = none ∧
    ∃ st, Store.stage (schemaView store.storeID db.tables)
        (datomView store.storeID eId db.tables) eId newAttrs
        ⟨attrsView store.storeID eId db.tables, [], []⟩ = .ok st ∧ m = st.attrs := by
  unfold Store.Update at h
  cases h0 : plan db.calls with
  | some e =>
    rw [Schema_fault plan store db e h0] at h
    simp at h
  | none =>
    rw [Schema_served plan store db h0] at h
    simp only at h
    cases h1 : plan (db.calls + 1) with
    | some e =>
      rw [readDatoms_fault plan store _ eId e h1] at h
      simp at h
    | none =>
      rw [readDatoms_served plan store _ eId h1] at h
      simp only [indexDatoms_rows] at h
      refine ⟨rfl, rfl, ?_⟩
      cases hst : Store.stage (schemaView store.storeID db.tables)
          (datomView store.storeID eId db.tables) eId newAttrs
          ⟨attrsView store.storeID eId db.tables, [], []⟩ with
      | error err =>
        rw [hst] at h
        simp at h
      | ok st =>
        rw [hst] at h
        refine ⟨st, rfl, ?_⟩
        simp only at h
        split at h
        · simp at h
        · split at h
          · simp at h
          · simp only [Prod.mk.injEq, Except.ok.injEq] at h
            exact h.1.symm

theorem setValue_fields (row : Datom) (val : GoValue) :
    (row.setValue val).2.entity = row.entity ∧
    (row.setValue val).2.attributeName = row.attributeName ∧
    (row.setValue val).2.dataType = row.dataType := by
  unfold Datom.setValue
  split_ifs
  · split <;> simp
  · split <;> simp
  · split <;> simp
  · split <;> simp
  · simp

theorem joinDatom_held (cols : Columns) (store : Store) (eId : EntityId) (k : String)
    (dt : DataType) (val : GoValue) (d : Datom) (s : SchemaRow)
    (h : (Datom.lit eId k dt).setValue val = (none, d))
    (hs1 : s.datatype = dt) (hs2 : s.name = k) :
    (joinDatom eId (cols.hold (store.assertRow d)) s).Value = cols.held d.Value := by
  unfold Datom.setValue at h
  simp only [Datom.lit] at h
  split_ifs at h with h1 h2 h3 h4
  · split at h <;> simp at h
    subst h; subst hs1; subst hs2
    simp [joinDatom, scanDatom, Store.assertRow, Columns.hold, Columns.held,
      NullString.toColumn, NullString.Scan, Datom.Value, h1, DataType.String,
      DataType.Number]
  · split at h <;> simp at h
    subst h; subst hs1; subst hs2
    simp [joinDatom, scanDatom, Store.assertRow, Columns.hold, Columns.held,
      NullBool.toColumn, NullBool.Scan, Datom.Value, h2, DataType.String,
      DataType.Number, DataType.Boolean]
  · split at h <;> simp at h
    subst h; subst hs1; subst hs2
    simp [joinDatom, scanDatom, Store.assertRow, Columns.hold, Columns.held,
      NullTime.Value, NullTime.Scan, Datom.Value, h3, DataType.String,
      DataType.Number, DataType.Boolean, DataType.Time]
  · split at h <;> simp at h
    subst h; subst hs1; subst hs2
    simp [joinDatom, scanDatom, Store.assertRow, Columns.hold, Columns.held,
      NullFloat64.toColumn, NullFloat64.Scan, Datom.Value, h4]
  · simp at h

theorem nodup_keys_unique {β : Type} :
    ∀ (l : List (String × β)), (l.map Prod.fst).Nodup →
      ∀ k v v1, (k, v) ∈ l → (k, v1) ∈ l → v = v1 := by
  intro l
  induction l with
  | nil => intro _ k v v1 h; simp at h
  | cons x xs ih =>
    intro hnd k v v1 h h1
    simp only [List.map_cons, List.nodup_cons] at hnd
    rcases List.mem_cons.1 h with rfl | _
    · rcases List.mem_cons.1 h1 with heq | h1
      · exact (Prod.mk.inj heq).2.symm
      · exact (hnd.1 (List.mem_map.2 ⟨(k, v1), h1, rfl⟩)).elim
    · rename_i h2
      rcases List.mem_cons.1 h1 with rfl | h3
      · exact (hnd.1 (List.mem_map.2 ⟨(k, v), h2, rfl⟩)).elim
      · exact ih hnd.2 k v v1 h2 h3

theorem Retract_noFaults (store : Store) (db : Handle) (rs : List Datom) :
    (store.Retract noFaults db rs).1 = none ∧
    (store.Retract noFaults db rs).2.1.storeID = store.storeID ∧
    (store.Retract noFaults db rs).2.2.tables = rs.foldl store.applyRetract db.tables := by
  unfold Store.Retract
  split_ifs
  · rw [call_served noFaults db _ rfl]
    simp only [retractLoop_noFaults]
    exact ⟨by simp, trivial, rfl⟩
  · simp only [retractLoop_noFaults]
    exact ⟨by simp, trivial, trivial⟩

theorem Assert_noFaults (cols : Columns) (store : Store) (db : Handle) (as : List Datom)
    (hfk : ∀ a ∈ as, (schemaRow store.storeID a.attributeName db.tables).isSome) :
    (store.Assert cols noFaults db as).1 = none ∧
    (store.Assert cols noFaults db as).2.1.storeID = store.storeID ∧
    (store.Assert cols noFaults db as).2.2.tables = as.foldl (store.applyAssert cols) db.tables := by
  unfold Store.Assert
  split_ifs
  · rw [call_served noFaults db _ rfl]
    simp only
    rw [assertLoop_noFaults cols { store with assertStmt := true } as ⟨db.tables, db.calls + 1⟩ hfk]
    exact ⟨rfl, trivial, rfl⟩
  · simp only
    rw [assertLoop_noFaults cols store as db hfk]
    exact ⟨rfl, trivial, rfl⟩

theorem applyAssert_congr (cols : Columns) (s1 s2 : Store) (h : s1.storeID = s2.storeID) :
    s1.applyAssert cols = s2.applyAssert cols := by
  funext t a
  simp [Store.applyAssert, Store.assertRow, h]

theorem Update_noFaults_tables (cols : Columns) (store : Store) (db : Handle) (eId : EntityId)
    (newAttrs : List (String × GoValue)) (st : Staged)
    (hst : Store.stage (schemaView store.storeID db.tables)
      (datomView store.storeID eId db.tables) eId newAttrs
      ⟨attrsView store.storeID eId db.tables, [], []⟩ = .ok st)
    (hfk : ∀ a ∈ st.assertions, (schemaRow store.storeID a.attributeName db.tables).isSome) :
    (store.Update cols noFaults db eId newAttrs).1 = .ok st.attrs ∧
    (store.Update cols noFaults db eId newAttrs).2.1.storeID = store.storeID ∧
    (store.Update cols noFaults db eId newAttrs).2.2.tables =
      st.assertions.foldl (store.applyAssert cols)
        (st.retractions.foldl store.applyRetract db.tables) := by
  unfold Store.Update
  rw [Schema_served noFaults store db rfl]
  simp only
  rw [readDatoms_served noFaults store _ eId rfl]
  simp only [indexDatoms_rows, hst]
  generalize hdb2 : (⟨db.tables, db.calls + 1 + 1⟩ : Handle) = db2
  have hdb2t : db2.tables = db.tables := by rw [← hdb2]
  have hr : ∀ r1 : Option GoError × Store × Handle,
      r1 = (if 0 < st.retractions.length then store.Retract noFaults db2 st.retractions
        else (none, store, db2)) →
      r1.1 = none ∧ r1.2.1.storeID = store.storeID ∧
        r1.2.2.tables = st.retractions.foldl store.applyRetract db.tables := by
    intro r1 hr1
    subst hr1
    split_ifs with hlen
    · rw [← hdb2t]; exact Retract_noFaults store db2 st.retractions
    · have : st.retractions = [] := List.length_eq_zero.1 (by omega)
      rw [this]
      exact ⟨rfl, rfl, hdb2t⟩
  generalize hr1 : (if 0 < st.retractions.length then
    store.Retract noFaults db2 st.retractions else (none, store, db2)) = r1
  obtain ⟨e1, s1, d1⟩ := r1
  obtain ⟨he1, hs1, hd1⟩ := hr _ hr1.symm
  simp only at he1 hs1 hd1
  subst he1
  simp only
  have ha : ∀ r2 : Option GoError × Store × Handle,
      r2 = (if 0 < st.assertions.length then s1.Assert cols noFaults d1 st.assertions
        else (none, s1, d1)) →
      r2.1 = none ∧ r2.2.1.storeID = store.storeID ∧
        r2.2.2.tables = st.assertions.foldl (store.applyAssert cols)
          (st.retractions.foldl store.applyRetract db.tables) := by
    intro r2 hr2
    subst hr2
    split_ifs with hlen
    · have hfk1 : ∀ a ∈ st.assertions,
          (schemaRow s1.storeID a.attributeName d1.tables).isSome := by
        intro a ha
        rw [hs1, schemaRow_congr _ _ _ _ (hd1 ▸ foldl_applyRetract_schema store _ _)]
        exact hfk a ha
      obtain ⟨h1, h2, h3⟩ := Assert_noFaults cols s1 d1 st.assertions hfk1
      refine ⟨h1, h2.trans hs1, ?_⟩
      rw [h3, hd1, applyAssert_congr cols s1 store hs1]
    · have : st.assertions = [] := List.length_eq_zero.1 (by omega)
      rw [this]
      exact ⟨rfl, hs1, hd1⟩
  generalize hr2 : (if 0 < st.assertions.length then
    s1.Assert cols noFaults d1 st.assertions else (none, s1, d1)) = r2
  obtain ⟨e2, s2, d2⟩ := r2
  obtain ⟨he2, hs2, hd2⟩ := ha _ hr2.symm
  simp only at he2 hs2 hd2
  subst he2
  exact ⟨rfl, hs2, hd2⟩

theorem datomView_fields (sid : Nat) (e : EntityId) (t : Tables) (k : String) (d : Datom)
    (h : datomView sid e t k = some d) : d.entity = e ∧ d.attributeName = k := by
  unfold datomView at h
  cases hr : datomRow sid e k t with
  | none => simp [hr] at h
  | some row =>
    cases hs : schemaRow sid k t with
    | none => simp [hr, hs] at h
    | some s =>
      simp only [hr, hs, Option.some_bind, Option.map_some', Option.some.injEq] at h
      subst h
      exact ⟨rfl, (schemaRow_name sid k t s hs).2⟩

theorem schemaView_some (sid : Nat) (t : Tables) (k : String) (a : Attribute)
    (h : schemaView sid t k = some a) :
    ∃ s, schemaRow sid k t = some s ∧ s.name = k ∧ s.datatype = a.DataType := by
  unfold schemaView at h
  cases hs : schemaRow sid k t with
  | none => simp [hs] at h
  | some s =>
    simp only [hs, Option.map_some', Option.some.injEq] at h
    subst h
    exact ⟨s, rfl, (schemaRow_name sid k t s hs).2, rfl⟩

/-- C2, amended. With every persistence call succeeding, when `Update` returns the map
`m`, an `Attributes` call for the same entity right after it returns `m` with every
value that `Update` wrote replaced by what its column holds of it, and the other keys
as in `m`; so it returns `m` itself whenever the columns hold every written value
unchanged.  A key removed with nil is absent from it. -/
theorem Update_then_Attributes_as_held (cols : Columns) (store : Store) (db : Handle)
    (eId : EntityId) (newAttrs : List (String × GoValue)) (m : Attributes)
    (store1 : Store) (db1 : Handle)
    (hnd : (newAttrs.map Prod.fst).Nodup)
    (h : store.Update cols noFaults db eId newAttrs = (.ok m, store1, db1)) :
    (store1.Attributes noFaults db1 eId).1 =
      .ok (fun k => if k ∈ newAttrs.map Prod.fst then (m k).map cols.held else m k) ∧
    ((∀ k v, k ∈ newAttrs.map Prod.fst → m k = some v → cols.held v = v) →
      (store1.Attributes noFaults db1 eId).1 = .ok m) ∧
    (∀ k, (k, GoValue.nil) ∈ newAttrs →
      ∃ a, (store1.Attributes noFaults db1 eId).1 = .ok a ∧ a k = none) := by
  have main : (store1.Attributes noFaults db1 eId).1 =
      .ok (fun k => if k ∈ newAttrs.map Prod.fst then (m k).map cols.held else m k) := by
    obtain ⟨_, _, st, hst, rfl⟩ := Update_ok_inv cols noFaults store db eId newAttrs m store1 db1 h
    obtain ⟨h1, h2, h3, h4⟩ := stage_spec _ _ _ _ _ _ hst hnd
    simp only [List.not_mem_nil, false_or] at h2 h3
    -- every staged assertion is the datom of one entry of the partial map
    have hname : ∀ a ∈ st.assertions, a.entity = eId ∧ a.attributeName ∈ newAttrs.map Prod.fst := by
      intro a ha
      obtain ⟨k, v, at1, hkv, _, _, hset⟩ := (h3 a).1 ha
      have hf := setValue_fields (Datom.lit eId k at1.DataType) v
      rw [hset] at hf
      exact ⟨hf.1, hf.2.1 ▸ List.mem_map.2 ⟨(k, v), hkv, rfl⟩⟩
    have hfk : ∀ a ∈ st.assertions,
        (schemaRow store.storeID a.attributeName db.tables).isSome := by
      intro a ha
      obtain ⟨k, v, at1, hkv, _, hsch, hset⟩ := (h3 a).1 ha
      have hf := setValue_fields (Datom.lit eId k at1.DataType) v
      rw [hset] at hf
      obtain ⟨s, hs, _, _⟩ := schemaView_some _ _ _ _ hsch
      rw [hf.2.1]
      simp [Datom.lit, hs]
    obtain ⟨hu1, hu2, hu3⟩ := Update_noFaults_tables cols store db eId newAttrs st hst hfk
    rw [h] at hu2 hu3
    simp only at hu2 hu3
    rw [Attributes_served noFaults store1 db1 eId rfl]
    simp only [Except.ok.injEq]
    funext k
    rw [hu2, hu3]
    have hfkr : ∀ a ∈ st.assertions, (schemaRow store.storeID a.attributeName
        (st.retractions.foldl store.applyRetract db.tables)).isSome := by
      intro a ha
      rw [schemaRow_congr _ _ _ _ (foldl_applyRetract_schema store _ _)]
      exact hfk a ha
    have hsch : schemaRow store.storeID k (st.assertions.foldl (store.applyAssert cols)
        (st.retractions.foldl store.applyRetract db.tables)) =
        schemaRow store.storeID k db.tables := by
      rw [schemaRow_congr _ _ _ _ (foldl_applyAssert_schema cols store _ _),
        schemaRow_congr _ _ _ _ (foldl_applyRetract_schema store _ _)]
    have hrow := datomRow_foldl_applyAssert cols store store.storeID eId k st.assertions _ hfkr
    rw [datomRow_foldl_applyRetract] at hrow
    unfold attrsView datomView
    rw [hsch, hrow]
    -- a retraction for the key `k` exists exactly when `k` is given with nil and held
    have hretr : (∃ d ∈ st.retractions, True ∧ eId = d.entity ∧ k = d.attributeName) ↔
        (k, GoValue.nil) ∈ newAttrs ∧ (datomView store.storeID eId db.tables k).isSome := by
      constructor
      · rintro ⟨d, hd, _, _, hk⟩
        obtain ⟨k1, hk1, hdm⟩ := (h2 d).1 hd
        have := (datomView_fields _ _ _ _ _ hdm).2
        rw [← hk] at this
        subst this
        exact ⟨hk1, by simp [hdm]⟩
      · rintro ⟨hk, hsome⟩
        obtain ⟨d, hd⟩ := Option.isSome_iff_exists.1 hsome
        have hf := datomView_fields _ _ _ _ _ hd
        exact ⟨d, (h2 d).2 ⟨k, hk, hd⟩, trivial, hf.1.symm, hf.2.symm⟩
    by_cases hk : k ∈ newAttrs.map Prod.fst
    · rw [if_pos hk]
      obtain ⟨⟨k1, v⟩, hkv, hk1⟩ := List.mem_map.1 hk
      simp only at hk1
      subst hk1
      by_cases hv : v = GoValue.nil
      · subst hv
        rw [((h1 k1).1 _ hkv).1 rfl]
        have hfind : st.assertions.reverse.find? (fun a => decide (store.storeID = store.storeID ∧
            eId = a.entity ∧ k1 = a.attributeName)) = none := by
          rw [List.find?_eq_none]
          intro a ha hP
          simp only [true_and, decide_eq_true_eq] at hP
          obtain ⟨k2, v2, at2, hkv2, hne, _, hset⟩ := (h3 a).1 (List.mem_reverse.1 ha)
          have hf := setValue_fields (Datom.lit eId k2 at2.DataType) v2
          rw [hset] at hf
          have hk2 : k2 = k1 := by rw [hP.2]; exact hf.2.1.symm
          subst hk2
          exact hne (nodup_keys_unique _ hnd _ _ _ hkv2 hkv)
        rw [hfind]
        simp only
        cases hdm : datomView store.storeID eId db.tables k1 with
        | some d =>
          rw [if_pos (hretr.2 ⟨hkv, by simp [hdm]⟩)]
          rfl
        | none =>
          rw [if_neg (fun hex => by simpa [hdm] using (hretr.1 hex).2)]
          unfold datomView at hdm
          rw [hdm]
          rfl
      · obtain ⟨at1, d, hsch1, hset, hm⟩ := ((h1 k1).1 _ hkv).2 hv
        rw [hm]
        have hd : d ∈ st.assertions := (h3 d).2 ⟨k1, v, at1, hkv, hv, hsch1, hset⟩
        have hfd := setValue_fields (Datom.lit eId k1 at1.DataType) v
        rw [hset] at hfd
        cases hfind : st.assertions.reverse.find? (fun a => decide (store.storeID = store.storeID ∧
            eId = a.entity ∧ k1 = a.attributeName)) with
        | none =>
          exfalso
          rw [List.find?_eq_none] at hfind
          exact hfind d (List.mem_reverse.2 hd)
            (by simp only [true_and, decide_eq_true_eq]; exact ⟨hfd.1.symm, hfd.2.1.symm⟩)
        | some b =>
          have hb := List.mem_reverse.1 (List.mem_of_find?_eq_some hfind)
          have hP := List.find?_some hfind
          simp only [true_and, decide_eq_true_eq] at hP
          obtain ⟨k2, v2, at2, hkv2, _, hsch2, hset2⟩ := (h3 b).1 hb
          have hf := setValue_fields (Datom.lit eId k2 at2.DataType) v2
          rw [hset2] at hf
          have hk2 : k2 = k1 := by rw [hP.2]; exact hf.2.1.symm
          subst hk2
          have hv2 := nodup_keys_unique _ hnd _ _ _ hkv2 hkv
          subst hv2
          rw [hsch1] at hsch2
          cases hsch2
          rw [hset] at hset2
          cases hset2
          obtain ⟨s, hs, hsn, hsd⟩ := schemaView_some _ _ _ _ hsch1
          simp only [hs, Option.some_bind, Option.map_some']
          rw [joinDatom_held cols store eId k2 at1.DataType v2 d s hset hsd hsn]
    · rw [if_neg hk, (h1 k).2 hk]
      have hfind : st.assertions.reverse.find? (fun a => decide (store.storeID = store.storeID ∧
          eId = a.entity ∧ k = a.attributeName)) = none := by
        rw [List.find?_eq_none]
        intro a ha hP
        simp only [true_and, decide_eq_true_eq] at hP
        exact hk (hP.2 ▸ (hname a (List.mem_reverse.1 ha)).2)
      rw [hfind]
      simp only
      rw [if_neg (fun hex => hk (List.mem_map.2 ⟨(k, GoValue.nil), (hretr.1 hex).1, rfl⟩))]
      rfl
  refine ⟨main, ?_, ?_⟩
  · intro hfix
    rw [main]
    congr 1
    funext k
    by_cases hk : k ∈ newAttrs.map Prod.fst
    · rw [if_pos hk]
      cases hm : m k with
      | none => rfl
      | some v => simp only [Option.map_some', hfix k v hk hm]
    · rw [if_neg hk]
  · intro k hk
    refine ⟨_, main, ?_⟩
    obtain ⟨_, _, st, hst, rfl⟩ :=
      Update_ok_inv cols noFaults store db eId newAttrs m store1 db1 h
    obtain ⟨h1, _, _, _⟩ := stage_spec _ _ _ _ _ _ hst hnd
    simp only [((h1 k).1 _ hk).1 rfl, Option.map_none', ite_self]

theorem stage_error (schemas : Schema) (dm : String → Option Datom) (eId : EntityId) :
    ∀ (l : List (String × GoValue)) (st0 : Staged),
      (∃ kv ∈ l, schemas kv.1 = none ∨ ∃ a, schemas kv.1 = some a ∧ kv.2 ≠ GoValue.nil ∧
        ((Datom.lit eId kv.1 a.DataType).setValue kv.2).1 ≠ none) →
      ∃ kv ∈ l,
        (schemas kv.1 = none ∧ Store.stage schemas dm eId l st0 =
          .error (.errorString ("Attribute \"" ++ kv.1 ++ "\" is not defined"))) ∨
        (∃ a, schemas kv.1 = some a ∧ kv.2 ≠ GoValue.nil ∧
          ((Datom.lit eId kv.1 a.DataType).setValue kv.2).1 ≠ none ∧
          Store.stage schemas dm eId l st0 =
            .error (.errorString ("Cannot assign " ++ kv.2.typeName ++ " to " ++
              dataTypeString a.DataType ++ " attribute \"" ++ kv.1 ++ "\""))) := by
  intro l
  induction l with
  | nil => intro st0 h; simp at h
  | cons kv rest ih =>
    intro st0 hbad
    obtain ⟨k0, v0⟩ := kv
    have tail : ∀ st1, Store.stage schemas dm eId ((k0, v0) :: rest) st0 =
        Store.stage schemas dm eId rest st1 →
        (∃ kv ∈ rest, schemas kv.1 = none ∨ ∃ a, schemas kv.1 = some a ∧
          kv.2 ≠ GoValue.nil ∧ ((Datom.lit eId kv.1 a.DataType).setValue kv.2).1 ≠ none) →
        ∃ kv ∈ (k0, v0) :: rest,
        (schemas kv.1 = none ∧ Store.stage schemas dm eId ((k0, v0) :: rest) st0 =
          .error (.errorString ("Attribute \"" ++ kv.1 ++ "\" is not defined"))) ∨
        (∃ a, schemas kv.1 = some a ∧ kv.2 ≠ GoValue.nil ∧
          ((Datom.lit eId kv.1 a.DataType).setValue kv.2).1 ≠ none ∧
          Store.stage schemas dm eId ((k0, v0) :: rest) st0 =
            .error (.errorString ("Cannot assign " ++ kv.2.typeName ++ " to " ++
              dataTypeString a.DataType ++ " attribute \"" ++ kv.1 ++ "\""))) := by
      intro st1 heq hrest
      obtain ⟨kv, hkv, hres⟩ := ih st1 hrest
      rw [heq]
      exact ⟨kv, List.mem_cons_of_mem _ hkv, hres⟩
    cases hs : schemas k0 with
    | none =>
      refine ⟨(k0, v0), List.mem_cons_self _ _, Or.inl ⟨hs, ?_⟩⟩
      simp [Store.stage, hs]
    | some schema =>
      have hrest_of : ¬ (((Datom.lit eId k0 schema.DataType).setValue v0).1 ≠ none ∧
          v0 ≠ GoValue.nil) →
          ∃ kv ∈ rest, schemas kv.1 = none ∨ ∃ a, schemas kv.1 = some a ∧
            kv.2 ≠ GoValue.nil ∧
            ((Datom.lit eId kv.1 a.DataType).setValue kv.2).1 ≠ none := by
        intro hgood
        obtain ⟨kv, hkv, hb⟩ := hbad
        rcases List.mem_cons.1 hkv with rfl | hkv
        · exfalso
          rcases hb with hb | ⟨a, ha, hne, herr⟩
          · simp [hs] at hb
          · simp only [hs, Option.some.injEq] at ha
            subst ha
            exact hgood ⟨herr, hne⟩
        · exact ⟨kv, hkv, hb⟩
      by_cases hv : v0 = GoValue.nil
      · subst hv
        cases hd : dm k0 with
        | some oldDatom =>
          exact tail ⟨mapDelete st0.attrs k0, st0.assertions, st0.retractions ++ [oldDatom]⟩
            (by simp [Store.stage, hs, hd]) (hrest_of (fun h => h.2 rfl))
        | none =>
          exact tail ⟨mapDelete st0.attrs k0, st0.assertions, st0.retractions⟩
            (by simp [Store.stage, hs, hd]) (hrest_of (fun h => h.2 rfl))
      · cases hset : (Datom.lit eId k0 schema.DataType).setValue v0 with
        | mk err datom =>
          cases err with
          | some err =>
            have herr := setValue_error_eq _ _ _ _ hset
            subst herr
            refine ⟨(k0, v0), List.mem_cons_self _ _, Or.inr ⟨schema, hs, hv, ?_, ?_⟩⟩
            · simp [hset]
            · simp only [Store.stage, hs]
              rw [if_neg hv, hset]
              simp [badType, GoError.Error, Datom.lit]
          | none =>
            exact tail ⟨mapSet st0.attrs k0 datom.Value, st0.assertions ++ [datom],
                st0.retractions⟩ (by simp only [Store.stage, hs]; rw [if_neg hv, hset])
              (hrest_of (fun h => h.1 (by simp [hset])))

/-- C3. If some key of the partial map is not defined in the schema of the store, or
some value other than nil cannot be coerced to the datatype of its attribute, `Update`
returns an error and neither the tables nor the store change, whatever the other
entries are and whatever the adapter does.  When the adapter serves the two reads, the
error is `Attribute "<name>" is not defined` for such a key, or the type-mismatch
message followed by ` attribute "<name>"` for such a value. -/
theorem Update_rejects_invalid_entry (cols : Columns) (plan : Faults) (store : Store) (db : Handle)
    (eId : EntityId) (newAttrs : List (String × GoValue)) (schemas : Schema)
    (hs : (store.Schema noFaults db).1 = .ok schemas)
    (hbad : ∃ kv ∈ newAttrs, schemas kv.1 = none ∨ ∃ a, schemas kv.1 = some a ∧
      kv.2 ≠ GoValue.nil ∧ ((Datom.lit eId kv.1 a.DataType).setValue kv.2).1 ≠ none) :
    (∃ err, (store.Update cols plan db eId newAttrs).1 = .error err) ∧
    (store.Update cols plan db eId newAttrs).2.2.tables = db.tables ∧
    (store.Update cols plan db eId newAttrs).2.1 = store ∧
    (plan db.calls = none → plan (db.calls + 1) = none →
      ∃ kv ∈ newAttrs,
        (schemas kv.1 = none ∧ (store.Update cols plan db eId newAttrs).1 =
          .error (.errorString ("Attribute \"" ++ kv.1 ++ "\" is not defined"))) ∨
        (∃ a, schemas kv.1 = some a ∧ kv.2 ≠ GoValue.nil ∧
          ((Datom.lit eId kv.1 a.DataType).setValue kv.2).1 ≠ none ∧
          (store.Update cols plan db eId newAttrs).1 =
            .error (.errorString ("Cannot assign " ++ kv.2.typeName ++ " to " ++
              dataTypeString a.DataType ++ " attribute \"" ++ kv.1 ++ "\"")))) := by
  rw [Schema_served noFaults store db rfl] at hs
  simp only [Except.ok.injEq] at hs
  subst hs
  cases h0 : plan db.calls with
  | some e =>
    have hU : store.Update cols plan db eId newAttrs =
        (.error e, store, ⟨db.tables, db.calls + 1⟩) := by
      unfold Store.Update
      rw [Schema_fault plan store db e h0]
    rw [hU]
    exact ⟨⟨e, rfl⟩, rfl, rfl, fun h => by simp at h⟩
  | none =>
    cases h1 : plan (db.calls + 1) with
    | some e =>
      have hU : store.Update cols plan db eId newAttrs =
          (.error (.errorString ("read datoms: " ++ e.Error)), store,
            ⟨db.tables, db.calls + 1 + 1⟩) := by
        unfold Store.Update
        rw [Schema_served plan store db h0]
        simp only
        rw [readDatoms_fault plan store _ eId e h1]
      rw [hU]
      exact ⟨⟨_, rfl⟩, rfl, rfl, fun _ h => by simp at h⟩
    | none =>
      obtain ⟨kv, hkv, hres⟩ := stage_error (schemaView store.storeID db.tables)
        (datomView store.storeID eId db.tables) eId newAttrs
        ⟨attrsView store.storeID eId db.tables, [], []⟩ hbad
      have hU : ∀ err, Store.stage (schemaView store.storeID db.tables)
          (datomView store.storeID eId db.tables) eId newAttrs
          ⟨attrsView store.storeID eId db.tables, [], []⟩ = .error err →
          store.Update cols plan db eId newAttrs =
            (.error err, store, ⟨db.tables, db.calls + 1 + 1⟩) := by
        intro err herr
        unfold Store.Update
        rw [Schema_served plan store db h0]
        simp only
        rw [readDatoms_served plan store _ eId h1]
        simp only [indexDatoms_rows, herr]
      rcases hres with ⟨hnone, herr⟩ | ⟨a, ha, hne, hset, herr⟩
      · rw [hU _ herr]
        exact ⟨⟨_, rfl⟩, rfl, rfl, fun _ _ => ⟨kv, hkv, Or.inl ⟨hnone, rfl⟩⟩⟩
      · rw [hU _ herr]
        exact ⟨⟨_, rfl⟩, rfl, rfl, fun _ _ => ⟨kv, hkv, Or.inr ⟨a, ha, hne, hset, rfl⟩⟩⟩

/-- C1. When `Update` returns a map, the map is the merge of the attributes the entity
held with the partial map: a key given with nil is absent, a key given with another
value holds that value coerced to the datatype of its attribute (its canonical
value), and every other key holds what `Attributes` returned before, so that no other
key appears.  The entries of the partial map are given in the order of the loop and
have distinct keys. -/
theorem Update_returns_merge (cols : Columns) (plan : Faults) (store : Store) (db : Handle) (eId : EntityId)
    (newAttrs : List (String × GoValue)) (m : Attributes) (store1 : Store) (db1 : Handle)
    (hnd : (newAttrs.map Prod.fst).Nodup)
    (h : store.Update cols plan db eId newAttrs = (.ok m, store1, db1)) :
    ∃ schemas old,
      (store.Schema noFaults db).1 = .ok schemas ∧
      (store.Attributes noFaults db eId).1 = .ok old ∧
      ∀ k,
        (∀ v, (k, v) ∈ newAttrs →
          (v = GoValue.nil → m k = none) ∧
          (v ≠ GoValue.nil → ∃ a d, schemas k = some a ∧
            (Datom.lit eId k a.DataType).setValue v = (none, d) ∧
            m k = some d.Value ∧ d.Value = canonicalValue v)) ∧
        (k ∉ newAttrs.map Prod.fst → m k = old k) := by
  obtain ⟨_, _, st, hst, rfl⟩ := Update_ok_inv cols plan store db eId newAttrs m store1 db1 h
  obtain ⟨h1, _, _, _⟩ := stage_spec _ _ _ _ _ _ hst hnd
  refine ⟨schemaView store.storeID db.tables, attrsView store.storeID eId db.tables, ?_, ?_, ?_⟩
  · rw [Schema_served noFaults store db rfl]
  · rw [Attributes_served noFaults store db eId rfl]
  · intro k
    refine ⟨fun v hv => ⟨((h1 k).1 v hv).1, fun hne => ?_⟩, (h1 k).2⟩
    obtain ⟨a, d, ha, hd, hm⟩ := ((h1 k).1 v hv).2 hne
    exact ⟨a, d, ha, hd, hm, setValue_ok_canonical _ _ _ hd⟩

theorem schemaRow_deleteSchema (sid : Nat) (n : String) (t : Tables) (sid1 : Nat)
    (k1 : String) :
    schemaRow sid1 k1 (deleteSchema sid n t) =
      if sid1 = sid ∧ k1 = n then none else schemaRow sid1 k1 t := by
  unfold deleteSchema
  split_ifs with hany h h
  · obtain ⟨rfl, rfl⟩ := h
    unfold schemaRow
    simp only [← List.filter_reverse, List.find?_filter, List.find?_eq_none]
    intro x _
    simp only [decide_not, decide_eq_true_eq, Bool.not_eq_true', decide_eq_false_iff_not,
      Bool.and_eq_true, not_and]
    tauto
  · unfold schemaRow
    simp only [← List.filter_reverse, List.find?_filter]
    congr 1
    funext r
    by_cases hr : r.store_id = sid1 ∧ r.name = k1
    · obtain ⟨rfl, rfl⟩ := hr
      simp [h]
    · simp [hr]
  · obtain ⟨rfl, rfl⟩ := h
    have := schemaRow_isSome_iff sid1 k1 t
    rw [Bool.not_eq_true] at hany
    rw [hany] at this
    cases hs : schemaRow sid1 k1 t with
    | none => rfl
    | some s => simp [hs] at this
  · rfl

theorem datomRow_deleteSchema (sid : Nat) (n : String) (t : Tables) (sid1 : Nat)
    (e1 : EntityId) (k1 : String) :
    datomRow sid1 e1 k1 (deleteSchema sid n t) =
      if sid1 = sid ∧ k1 = n ∧ (schemaRow sid n t).isSome then none
      else datomRow sid1 e1 k1 t := by
  rw [schemaRow_isSome_iff]
  unfold deleteSchema
  split_ifs with hany h h
  · obtain ⟨rfl, rfl, _⟩ := h
    unfold datomRow
    simp only [← List.filter_reverse, List.find?_filter, List.find?_eq_none]
    intro x _
    simp only [decide_not, decide_eq_true_eq, Bool.not_eq_true', decide_eq_false_iff_not,
      Bool.and_eq_true, not_and]
    tauto
  · unfold datomRow
    simp only [← List.filter_reverse, List.find?_filter]
    congr 1
    funext r
    have h2 : ¬ (sid1 = sid ∧ k1 = n) := fun hh => h ⟨hh.1, hh.2, hany⟩
    by_cases hr : r.store_id = sid1 ∧ r.entity_id = e1 ∧ r.attribute_name = k1
    · obtain ⟨rfl, rfl, rfl⟩ := hr
      simp [h2]
    · simp [hr]
  · exact absurd h.2.2 hany
  · rfl

theorem datomView_deleteSchema (sid : Nat) (n : String) (t : Tables) (sid1 : Nat)
    (e1 : EntityId) :
    datomView sid1 e1 (deleteSchema sid n t) =
      if sid1 = sid then mapDelete (datomView sid1 e1 t) n else datomView sid1 e1 t := by
  funext k
  unfold datomView
  rw [schemaRow_deleteSchema, datomRow_deleteSchema]
  by_cases hs : sid1 = sid
  · subst hs
    by_cases hk : k = n
    · subst hk
      simp [mapDelete]
    · simp [mapDelete, hk]
  · simp [hs]

theorem schemaView_deleteSchema (sid : Nat) (n : String) (t : Tables) (sid1 : Nat) :
    schemaView sid1 (deleteSchema sid n t) =
      if sid1 = sid then mapDelete (schemaView sid1 t) n else schemaView sid1 t := by
  funext k
  unfold schemaView
  rw [schemaRow_deleteSchema]
  by_cases hs : sid1 = sid
  · subst hs
    by_cases hk : k = n
    · subst hk
      simp [mapDelete]
    · simp [mapDelete, hk]
  · simp [hs]

theorem attrsView_deleteSchema (sid : Nat) (n : String) (t : Tables) (sid1 : Nat)
    (e1 : EntityId) :
    attrsView sid1 e1 (deleteSchema sid n t) =
      if sid1 = sid then mapDelete (attrsView sid1 e1 t) n else attrsView sid1 e1 t := by
  funext k
  unfold attrsView
  rw [datomView_deleteSchema]
  by_cases hs : sid1 = sid
  · subst hs
    by_cases hk : k = n
    · subst hk
      simp [mapDelete]
    · simp [mapDelete, hk]
  · simp [hs]

/-- C5. With the adapter serving the calls, `ForgetAttribute(name)` returns no error;
afterwards `Schema()` of the store is the schema before without `name`, `Attributes(e)`
of every entity of the store is what it was without `name`, the rows of both tables
other than those of `name` in this store are the same, and `Schema()` and
`Attributes(e)` of every store with another identifier are what they were. -/
theorem ForgetAttribute_frame (store : Store) (db : Handle) (name : String) :
    (store.ForgetAttribute noFaults db name).1 = none ∧
    (∃ m, (store.Schema noFaults db).1 = .ok m ∧
      (store.Schema noFaults (store.ForgetAttribute noFaults db name).2).1 =
        .ok (mapDelete m name) ∧ mapDelete m name name = none) ∧
    (∀ e, ∃ a, (store.Attributes noFaults db e).1 = .ok a ∧
      (store.Attributes noFaults (store.ForgetAttribute noFaults db name).2 e).1 =
        .ok (mapDelete a name) ∧ mapDelete a name name = none) ∧
    (∀ other : Store, other.storeID ≠ store.storeID →
      (other.Schema noFaults (store.ForgetAttribute noFaults db name).2).1 =
        (other.Schema noFaults db).1 ∧
      ∀ e, (other.Attributes noFaults (store.ForgetAttribute noFaults db name).2 e).1 =
        (other.Attributes noFaults db e).1) ∧
    (store.ForgetAttribute noFaults db name).2.tables.eav_schema.filter
        (fun r => ¬ (r.store_id = store.storeID ∧ r.name = name)) =
      db.tables.eav_schema.filter (fun r => ¬ (r.store_id = store.storeID ∧ r.name = name)) ∧
    (store.ForgetAttribute noFaults db name).2.tables.eav_datoms.filter
        (fun d => ¬ (d.store_id = store.storeID ∧ d.attribute_name = name)) =
      db.tables.eav_datoms.filter
        (fun d => ¬ (d.store_id = store.storeID ∧ d.attribute_name = name)) := by
  have hF : store.ForgetAttribute noFaults db name =
      (none, ⟨deleteSchema store.storeID name db.tables, db.calls + 1⟩) := by
    unfold Store.ForgetAttribute
    rw [call_served noFaults db _ rfl]
  rw [hF]
  refine ⟨rfl, ⟨schemaView store.storeID db.tables, ?_, ?_, by simp [mapDelete]⟩, ?_, ?_, ?_, ?_⟩
  · rw [Schema_served noFaults store db rfl]
  · rw [Schema_served noFaults store _ rfl]
    simp only [schemaView_deleteSchema, if_true]
  · intro e
    refine ⟨attrsView store.storeID e db.tables, ?_, ?_, by simp [mapDelete]⟩
    · rw [Attributes_served noFaults store db e rfl]
    · rw [Attributes_served noFaults store _ e rfl]
      simp only [attrsView_deleteSchema, if_true]
  · intro other hne
    constructor
    · rw [Schema_served noFaults other db rfl, Schema_served noFaults other _ rfl]
      simp only [schemaView_deleteSchema, if_neg hne]
    · intro e
      rw [Attributes_served noFaults other db e rfl, Attributes_served noFaults other _ e rfl]
      simp only [attrsView_deleteSchema, if_neg hne]
  · simp only [deleteSchema]
    split_ifs
    · simp only [List.filter_filter, Bool.and_self]
    · rfl
  · simp only [deleteSchema]
    split_ifs
    · simp only [List.filter_filter, Bool.and_self]
    · rfl

theorem foldl_applyRetract_filter (store : Store) (id : EntityId) :
    ∀ (rs : List Datom) (t : Tables), (∀ d ∈ rs, d.entity = id) →
      (rs.foldl store.applyRetract t).eav_datoms.filter
          (fun d => ¬ (d.store_id = store.storeID ∧ d.entity_id = id)) =
        t.eav_datoms.filter (fun d => ¬ (d.store_id = store.storeID ∧ d.entity_id = id)) := by
  intro rs
  induction rs with
  | nil => intro t _; rfl
  | cons d rs ih =>
    intro t h
    rw [List.foldl_cons, ih _ (fun x hx => h x (List.mem_cons_of_mem _ hx))]
    simp only [Store.applyRetract, deleteDatom, List.filter_filter]
    congr 1
    funext r
    have hd := h d (List.mem_cons_self _ _)
    by_cases hr : r.store_id = store.storeID ∧ r.entity_id = id
    · simp [hr]
    · have : ¬ (r.store_id = store.storeID ∧ r.entity_id = d.entity ∧
          r.attribute_name = d.attributeName) := fun hh => hr ⟨hh.1, hd ▸ hh.2.1⟩
      simp [hr, this]

/-- C9. With every persistence call succeeding, `ForgetEntity(id)` returns no error
and `Attributes(id)` is then the empty map; the table `eav_schema` and so `Schema()` of
every store, the rows of `eav_datoms` of every other entity and of every other store,
and so `Attributes(e)` of every other entity and of every entity of another store, are
what they were. -/
theorem ForgetEntity_frame (store : Store) (db : Handle) (id : EntityId) :
    (store.ForgetEntity noFaults db id).1 = none ∧
    ((store.ForgetEntity noFaults db id).2.1.Attributes noFaults
      (store.ForgetEntity noFaults db id).2.2 id).1 = .ok mapEmpty ∧
    (store.ForgetEntity noFaults db id).2.2.tables.eav_schema = db.tables.eav_schema ∧
    (∀ s : Store, (s.Schema noFaults (store.ForgetEntity noFaults db id).2.2).1 =
      (s.Schema noFaults db).1) ∧
    (∀ (s : Store) (e : EntityId), s.storeID ≠ store.storeID ∨ e ≠ id →
      (s.Attributes noFaults (store.ForgetEntity noFaults db id).2.2 e).1 =
        (s.Attributes noFaults db e).1) ∧
    (store.ForgetEntity noFaults db id).2.2.tables.eav_datoms.filter
        (fun d => ¬ (d.store_id = store.storeID ∧ d.entity_id = id)) =
      db.tables.eav_datoms.filter
        (fun d => ¬ (d.store_id = store.storeID ∧ d.entity_id = id)) := by
  have hent : ∀ d ∈ (selectDatoms store.storeID id db.tables).map (scanDatom id),
      d.entity = id := by
    intro d hd
    obtain ⟨r, _, rfl⟩ := List.mem_map.1 hd
    rfl
  have hF : store.ForgetEntity noFaults db id =
      store.Retract noFaults ⟨db.tables, db.calls + 1⟩
        ((selectDatoms store.storeID id db.tables).map (scanDatom id)) := by
    unfold Store.ForgetEntity
    rw [readDatoms_served noFaults store db id rfl]
  obtain ⟨hr1, hr2, hr3⟩ := Retract_noFaults store ⟨db.tables, db.calls + 1⟩
    ((selectDatoms store.storeID id db.tables).map (scanDatom id))
  rw [← hF] at hr1 hr2 hr3
  simp only at hr3
  have hsch : (store.ForgetEntity noFaults db id).2.2.tables.eav_schema =
      db.tables.eav_schema := by
    rw [hr3, foldl_applyRetract_schema]
  have hrow : ∀ sid1 e1 k1,
      datomRow sid1 e1 k1 (store.ForgetEntity noFaults db id).2.2.tables =
        if ∃ d ∈ (selectDatoms store.storeID id db.tables).map (scanDatom id),
            sid1 = store.storeID ∧ e1 = d.entity ∧ k1 = d.attributeName then none
        else datomRow sid1 e1 k1 db.tables := by
    intro sid1 e1 k1
    rw [hr3, datomRow_foldl_applyRetract]
  refine ⟨hr1, ?_, hsch, ?_, ?_, ?_⟩
  · rw [Attributes_served noFaults _ _ id rfl]
    simp only [Except.ok.injEq]
    funext k
    unfold attrsView datomView
    rw [hr2, hrow, schemaRow_congr _ _ _ _ hsch]
    by_cases hex : ∃ d ∈ (selectDatoms store.storeID id db.tables).map (scanDatom id),
        store.storeID = store.storeID ∧ id = d.entity ∧ k = d.attributeName
    · rw [if_pos hex]; rfl
    · rw [if_neg hex]
      have hnone : datomView store.storeID id db.tables k = none := by
        rw [← selectDatoms_find, List.find?_eq_none]
        intro d hd hk
        simp only [decide_eq_true_eq] at hk
        have hd2 := List.mem_reverse.1 hd
        exact hex ⟨d, hd2, rfl, (hent d hd2).symm, hk.symm⟩
      unfold datomView at hnone
      rw [hnone]
      rfl
  · intro s
    rw [Schema_served noFaults s db rfl, Schema_served noFaults s _ rfl]
    simp only [Except.ok.injEq]
    funext k
    unfold schemaView
    rw [schemaRow_congr _ _ _ _ hsch]
  · intro s e hne
    rw [Attributes_served noFaults s db e rfl, Attributes_served noFaults s _ e rfl]
    simp only [Except.ok.injEq]
    funext k
    unfold attrsView datomView
    rw [hrow, schemaRow_congr _ _ _ _ hsch]
    rw [if_neg]
    rintro ⟨d, hd, h1, h2, _⟩
    rcases hne with hne | hne
    · exact hne h1
    · exact hne (h2.trans (hent d hd))
  · rw [hr3]
    exact foldl_applyRetract_filter store id _ db.tables hent

/-! ## The theorems at the scenarios of the tests -/

/-- C1, at the second `Update` of `TestRemoveAttributes`. -/
theorem Update_returns_merge_witness :
    removeLabel.1 = .ok removeLabelMap ∧
    removeLabelMap "label" = none ∧ removeLabelMap "other" = some (.string "hi") ∧
    ∃ schemas old,
      ((New 1).Schema noFaults labelDb).1 = .ok schemas ∧
      ((New 1).Attributes noFaults labelDb "1").1 = .ok old ∧
      ∀ k,
        (∀ v, (k, v) ∈ [("label", GoValue.nil), ("other", GoValue.string "hi")] →
          (v = GoValue.nil → removeLabelMap k = none) ∧
          (v ≠ GoValue.nil → ∃ a d, schemas k = some a ∧
            (Datom.lit "1" k a.DataType).setValue v = (none, d) ∧
            removeLabelMap k = some d.Value ∧ d.Value = canonicalValue v)) ∧
        (k ∉ [("label", GoValue.nil), ("other", GoValue.string "hi")].map Prod.fst →
          removeLabelMap k = old k) :=
  ⟨rfl, by decide, by decide,
    Update_returns_merge pgColumns noFaults (New 1) labelDb "1"
      [("label", .nil), ("other", .string "hi")] removeLabelMap removeLabel.2.1 removeLabel.2.2
      (by decide) rfl⟩

/-- C2, refuted as stated.  Store 1 has the `Time` attribute `someTime`;
`Update("first", {someTime: t})` with `t` 100 nanoseconds past a whole microsecond
returns the map with `t`, and `Attributes("first")` right after it returns the time the
`timestamptz` column holds, which is another instant: the two maps differ. -/
theorem Update_then_Attributes_loses_nanoseconds :
    setTime.1 = .ok setTimeMap ∧
    setTimeMap "someTime" = some (.time ⟨1762257600, 123456100, "UTC"⟩) ∧
    (setTime.2.1.Attributes noFaults setTime.2.2 "first").1.toOption.map
      (fun a => a "someTime") = some (some (.time ⟨1762257600, 123456000, ""⟩)) ∧
    (setTime.2.1.Attributes noFaults setTime.2.2 "first").1 ≠ .ok setTimeMap := by
  refine ⟨rfl, by decide, by decide, ?_⟩
  intro heq
  have h1 : (setTime.2.1.Attributes noFaults setTime.2.2 "first").1.toOption.map
      (fun a => a "someTime") = some (some (.time ⟨1762257600, 123456000, ""⟩)) := by decide
  rw [heq] at h1
  exact absurd h1 (by decide)

/-- C2 amended, at the second `Update` of `TestRemoveAttributes` (`label` is removed
with nil, the string `hi` is held unchanged), at the `Update` of `TestSmoke` (the
integer 359 is read back as the double 359.0) and at `setTime`. -/
theorem Update_then_Attributes_as_held_witness :
    (removeLabel.2.1.Attributes noFaults removeLabel.2.2 "1").1 = .ok removeLabelMap ∧
    removeLabelMap "label" = none ∧
    (setCount.2.1.Attributes noFaults setCount.2.2 "abcdefg").1 = .ok setCountMap ∧
    setCountMap "count" = some (.float64 ⟨0x4076700000000000⟩) ∧
    (setTime.2.1.Attributes noFaults setTime.2.2 "first").1 =
      .ok (fun k => if k ∈ [("someTime", GoValue.time nanoTime)].map Prod.fst then
        (setTimeMap k).map pgColumns.held else setTimeMap k) :=
  ⟨(Update_then_Attributes_as_held pgColumns (New 1) labelDb "1"
      [("label", .nil), ("other", .string "hi")]
      removeLabelMap removeLabel.2.1 removeLabel.2.2 (by decide) rfl).2.1
      (by
        intro k v _ hm
        by_cases h1 : k = "other"
        · subst h1
          have : v = GoValue.string "hi" := by
            simpa [removeLabelMap, mapSet] using hm.symm
          subst this
          rfl
        · by_cases h2 : k = "label"
          · subst h2
            simp [removeLabelMap, mapSet, mapDelete] at hm
          · simp [removeLabelMap, mapSet, mapDelete, mapEmpty, h1, h2] at hm),
    by decide,
    (Update_then_Attributes_as_held pgColumns (New 1) countDb "abcdefg" [("count", .int 359)]
      setCountMap setCount.2.1 setCount.2.2 (by decide) rfl).2.1
      (by
        intro k v _ hm
        by_cases h1 : k = "count"
        · subst h1
          have : v = GoValue.float64 ⟨0x4076700000000000⟩ := by
            simpa [setCountMap, mapSet] using hm.symm
          subst this
          decide
        · simp [setCountMap, mapSet, mapEmpty, h1] at hm),
    by decide,
    (Update_then_Attributes_as_held pgColumns (New 1) timeDb "first"
      [("someTime", .time nanoTime)] setTimeMap setTime.2.1 setTime.2.2 (by decide) rfl).1⟩

/-- C3, at `TestSetUndefinedAttribute` and at the third `Update` of
`TestStoreIsolation`. -/
theorem Update_rejects_invalid_entry_witness :
    ((New 1).Update pgColumns noFaults emptyDb "1" [("non-existant", .string "ok")]).1 =
      .error (.errorString "Attribute \"non-existant\" is not defined") ∧
    ((New 1).Update pgColumns noFaults emptyDb "1" [("non-existant", .string "ok")]).2.2.tables =
      emptyDb.tables ∧
    ((New 1).Update pgColumns noFaults countryDb "thing" [("country", .int 49)]).1 =
      .error (.errorString "Cannot assign int to String attribute \"country\"") ∧
    ((New 1).Update pgColumns noFaults countryDb "thing" [("country", .int 49)]).2.2.tables =
      countryDb.tables := by
  have h := Update_rejects_invalid_entry pgColumns noFaults (New 1) emptyDb "1"
    [("non-existant", .string "ok")] mapEmpty rfl ⟨_, List.mem_singleton.2 rfl, Or.inl rfl⟩
  have g := Update_rejects_invalid_entry pgColumns noFaults (New 1) countryDb "thing"
    [("country", .int 49)] (mapSet mapEmpty "country" ⟨1, 0, "country", DataType.String⟩) rfl
    ⟨_, List.mem_singleton.2 rfl,
      Or.inr ⟨⟨1, 0, "country", DataType.String⟩, by decide, by decide, by decide⟩⟩
  refine ⟨?_, h.2.1, ?_, g.2.1⟩
  · obtain ⟨kv, hkv, hres⟩ := h.2.2.2 rfl rfl
    rw [List.mem_singleton] at hkv
    subst hkv
    rcases hres with ⟨_, hr⟩ | ⟨a, ha, _⟩
    · exact hr
    · exact absurd ha (by simp [mapEmpty])
  · obtain ⟨kv, hkv, hres⟩ := g.2.2.2 rfl rfl
    rw [List.mem_singleton] at hkv
    subst hkv
    rcases hres with ⟨hn, _⟩ | ⟨a, ha, _, _, hr⟩
    · exact absurd hn (by simp [mapSet])
    · have ha2 : a = ⟨1, 0, "country", DataType.String⟩ := by
        simp [mapSet] at ha
        exact ha.symm
      subst ha2
      exact hr

end Eav
